import Mathlib

set_option exponentiation.threshold 4096

/-!
# Closures (src/JS/Closures/closures.js)

A shallow embedding of the closure examples of the repository.

* A closure is a function together with the environment of the factory
  invocation that created it.  The captured variable of a counter lives in a
  cell of a store of environments; every factory invocation allocates a new
  cell, and the returned function is identified by the address of its cell.
* The numbers of the account (`initialBalance`, `amount`, `balance`) are
  JavaScript Numbers, that is IEEE-754 doubles: `Number` below holds `NaN`,
  the infinities and every finite double exactly, `+` and `-` round to the
  nearest double (ties to even), comparisons with `NaN` are false, and
  `numberToString` is the Number to string conversion of template literals.
* The counts of the two counters are modelled as mathematical integers
  (`Int`), which is exact for the first `2^53` calls of a counter.
* `console.log` is modelled by the list of lines a call emits.
* No function of the source throws: every call is a total function returning
  its returned value, the state of the enclosed variables after the call and
  the emitted lines.
-/

namespace Closures

/-! ## JavaScript numbers -/

/-- A JavaScript Number, that is an IEEE-754 double: `NaN`, plus or minus
`Infinity`, or a finite value.  Every finite double is an integer multiple of
`2^-1074`; `fin units` is the value `units * 2^-1074`.  The sign of zero is
not kept: no operation of the source distinguishes `-0` from `0`. -/
inductive Number where
  | nan
  | inf (negative : Bool)
  | fin (units : Int)
  deriving DecidableEq, Repr

/-- The value 1 counted in units of `2^-1074`. -/
def unitsPerOne : Nat := 2 ^ 1074

/-- The value `2^1024` counted in units: a rounded magnitude that reaches it
overflows to `Infinity`. -/
def overflowUnits : Nat := 2 ^ 2098

/-- Binary search for the position of the leading bit of `a`: adds each step
`e` to `acc` when `a` still reaches `2^(acc + e)`. -/
def log2Search (a : Nat) : List Nat → Nat → Nat
  | [], acc => acc
  | e :: es, acc => if a ≥ 2 ^ (acc + e) then log2Search a es (acc + e) else log2Search a es acc

/-- Position of the leading bit of `a` (for `1 <= a < 2^4096`; 0 for 0). -/
def floorLog2 (a : Nat) : Nat :=
  log2Search a [2048, 1024, 512, 256, 128, 64, 32, 16, 8, 4, 2, 1] 0

/-- Rounds the non-negative fraction `N / D` of units to the nearest
magnitude with a 53-bit significand, ties to the even significand (the
IEEE-754 default rounding); the result is counted in units. -/
def roundFrac (N D : Nat) : Nat :=
  let sh := floorLog2 (N / D) + 1 - 53
  let g := D * 2 ^ sh
  let q := N / g
  let r := N % g
  if 2 * r > g ∨ (2 * r = g ∧ q % 2 = 1) then (q + 1) * 2 ^ sh else q * 2 ^ sh

/-- The double nearest to the exact value `K * 2^-1074`; `Infinity` of the
sign of `K` on overflow. -/
def roundUnits (K : Int) : Number :=
  let v := roundFrac K.natAbs 1
  if v ≥ overflowUnits then Number.inf (decide (K < 0))
  else Number.fin (if K < 0 then -(v : Int) else (v : Int))

/-- The Number value of an integer literal: the double nearest to `n`. -/
def Number.ofInt (n : Int) : Number :=
  roundUnits (n * (unitsPerOne : Int))

/-- The exact value of a Number when it is an integer; `none` for a
non-integer, `NaN` or an infinity. -/
def Number.toInt? : Number → Option Int
  | Number.fin K => if K % (unitsPerOne : Int) = 0 then some (K / (unitsPerOne : Int)) else none
  | _ => none

/-- JavaScript `a + b` on Numbers. -/
def Number.add : Number → Number → Number
  | Number.nan, _ => Number.nan
  | _, Number.nan => Number.nan
  | Number.inf n1, Number.inf n2 => if n1 = n2 then Number.inf n1 else Number.nan
  | Number.inf n, Number.fin _ => Number.inf n
  | Number.fin _, Number.inf n => Number.inf n
  | Number.fin a, Number.fin b => roundUnits (a + b)

/-- JavaScript unary `-a`. -/
def Number.neg : Number → Number
  | Number.nan => Number.nan
  | Number.inf n => Number.inf (!n)
  | Number.fin a => Number.fin (-a)

/-- JavaScript `a - b` on Numbers. -/
def Number.sub (a b : Number) : Number :=
  Number.add a (Number.neg b)

/-- JavaScript `a < b` on Numbers: false when an operand is `NaN`. -/
def Number.lt : Number → Number → Bool
  | Number.nan, _ => false
  | _, Number.nan => false
  | Number.inf n1, Number.inf n2 => n1 && !n2
  | Number.inf n, Number.fin _ => n
  | Number.fin _, Number.inf n => !n
  | Number.fin a, Number.fin b => decide (a < b)

/-- JavaScript `a <= b` on Numbers: false when an operand is `NaN`. -/
def Number.le : Number → Number → Bool
  | Number.nan, _ => false
  | _, Number.nan => false
  | Number.inf n1, Number.inf n2 => n1 || !n2
  | Number.inf n, Number.fin _ => n
  | Number.fin _, Number.inf n => !n
  | Number.fin a, Number.fin b => decide (a ≤ b)

/-- Source of the name: `Number.isFinite`: neither `NaN` nor an infinity. -/
def Number.isFinite : Number → Bool
  | Number.fin _ => true
  | _ => false

instance : Add Number := ⟨Number.add⟩

instance : Sub Number := ⟨Number.sub⟩

instance : Neg Number := ⟨Number.neg⟩

instance : LT Number := ⟨fun a b => Number.lt a b = true⟩

instance : LE Number := ⟨fun a b => Number.le a b = true⟩

instance (a b : Number) : Decidable (a < b) :=
  inferInstanceAs (Decidable (Number.lt a b = true))

instance (a b : Number) : Decidable (a ≤ b) :=
  inferInstanceAs (Decidable (Number.le a b = true))

instance (n : Nat) : OfNat Number n := ⟨Number.ofInt (n : Int)⟩

/-- Source of the name: `Number.MAX_SAFE_INTEGER`, that is `2^53 - 1`. -/
def maxSafeInteger : Int := 2 ^ 53 - 1

/-- Source of the name: `Number.isSafeInteger`: an integer of absolute value
at most `2^53 - 1`. -/
def isSafeInteger (n : Int) : Prop :=
  -maxSafeInteger ≤ n ∧ n ≤ maxSafeInteger

instance (n : Int) : Decidable (isSafeInteger n) :=
  inferInstanceAs (Decidable (-maxSafeInteger ≤ n ∧ n ≤ maxSafeInteger))

/-! ## Number to string conversion -/

/-- The smallest `j >= start` with `a * 10^j >= 1` (in units), searched with
bounded fuel. -/
def firstScale : Nat → Nat → Nat → Nat
  | 0, _, j => j
  | fuel + 1, a, j => if a * 10 ^ j ≥ unitsPerOne then j else firstScale fuel a (j + 1)

/-- The decimal exponent `n` of a positive value `x` of `a` units:
`10^(n-1) <= x < 10^n`. -/
def decimalExponent (a : Nat) : Int :=
  if a ≥ unitsPerOne then ((Nat.toDigits 10 (a / unitsPerOne)).length : Int)
  else 1 - (firstScale 400 a 1 : Int)

/-- A decimal `s * 10^(n - k)` with `k` digits `s`, held with its value as
the fraction `num / den` of units. -/
structure Decimal where
  s : Nat
  n : Int
  num : Nat
  den : Nat
  deriving Repr

/-- The decimal `s * 10^(n - k)`. -/
def candidate (k : Nat) (n : Int) (s : Nat) : Decimal :=
  let p := n - (k : Int)
  if p ≥ 0 then ⟨s, n, s * 10 ^ p.toNat * unitsPerOne, 1⟩
  else ⟨s, n, s * unitsPerOne, 10 ^ (-p).toNat⟩

/-- The largest `s` with `s * 10^(n - k)` at most the value of `a` units. -/
def floorDigits (a : Nat) (k : Nat) (n : Int) : Nat :=
  let p := n - (k : Int)
  if p ≥ 0 then a / (unitsPerOne * 10 ^ p.toNat) else a * 10 ^ (-p).toNat / unitsPerOne

/-- Whether the decimal has exactly `k` digits and reads back as the double
of `a` units. -/
def Decimal.valid (a k : Nat) (c : Decimal) : Bool :=
  decide (10 ^ (k - 1) ≤ c.s) && decide (c.s < 10 ^ k) && decide (roundFrac c.num c.den = a)

/-- Distance of the decimal from the value of `a` units, scaled by `den`. -/
def Decimal.dist (a : Nat) (c : Decimal) : Nat :=
  if c.num ≥ a * c.den then c.num - a * c.den else a * c.den - c.num

/-- Whether `c` is to be preferred over `d`: strictly closer to the value,
or as close and with an even `s` where `d` has an odd one. -/
def Decimal.better (a : Nat) (c d : Decimal) : Bool :=
  let dc := c.dist a * d.den
  let dd := d.dist a * c.den
  decide (dc < dd) || (decide (dc = dd) && decide (c.s % 2 = 0) && decide (d.s % 2 = 1))

/-- The preferred decimal of a list. -/
def pick (a : Nat) : List Decimal → Option Decimal
  | [] => none
  | c :: cs =>
    match pick a cs with
    | none => some c
    | some d => if c.better a d then some c else some d

/-- The preferred `k`-digit decimal that reads back as the double of `a`
units, if there is one. -/
def shortestAt (a k : Nat) (n0 : Int) : Option Decimal :=
  let f0 := floorDigits a k n0
  let f1 := floorDigits a k (n0 + 1)
  pick a (([candidate k n0 f0, candidate k n0 (f0 + 1), candidate k (n0 + 1) f1,
    candidate k (n0 + 1) (f1 + 1)]).filter (Decimal.valid a k))

/-- The decimal with the fewest digits (from `k` digits on) that reads back
as the double of `a` units. -/
def shortest (a : Nat) (n0 : Int) : Nat → Nat → Option (Nat × Decimal)
  | 0, _ => none
  | fuel + 1, k =>
    match shortestAt a k n0 with
    | some c => some (k, c)
    | none => shortest a n0 fuel (k + 1)

/-- A run of `n` characters `0`. -/
def zeros (n : Nat) : List Char := List.replicate n '0'

/-- Lays out the digits of `s * 10^(n - k)` the way `Number.prototype.toString`
does: plain digits for `k <= n <= 21`, a decimal point inside for
`0 < n <= 21`, leading `0.` for `-6 < n <= 0`, exponent form otherwise. -/
def formatDecimal (digits : List Char) (n : Int) : String :=
  let k := digits.length
  if (k : Int) ≤ n ∧ n ≤ 21 then String.mk (digits ++ zeros (n.toNat - k))
  else if 0 < n ∧ n ≤ 21 then String.mk (digits.take n.toNat ++ '.' :: digits.drop n.toNat)
  else if -6 < n ∧ n ≤ 0 then String.mk ('0' :: '.' :: (zeros (-n).toNat ++ digits))
  else
    let e := n - 1
    let mant := if k = 1 then digits else digits.take 1 ++ '.' :: digits.drop 1
    String.mk (mant ++ 'e' :: (if e ≥ 0 then '+' else '-') :: Nat.toDigits 10 e.natAbs)

/-- Renders the positive double of `a` units from its shortest decimal (at
most 17 digits are ever needed, so the last case is not reached). -/
def shortestToString (a : Nat) : String :=
  match shortest a (decimalExponent a) 17 1 with
  | some (_, c) => formatDecimal (Nat.toDigits 10 c.s) c.n
  | none => "NaN"

/-- Renders the positive double of `a` units.  A safe integer prints as its
decimal digits, which is also what the shortest decimal gives for it; any
other value goes through the shortest decimal. -/
def positiveToString (a : Nat) : String :=
  if a % unitsPerOne = 0 ∧ a / unitsPerOne ≤ 2 ^ 53 - 1 then toString (a / unitsPerOne)
  else shortestToString a

/-- The string a template literal or a string concatenation puts in place
of a Number (`Number.prototype.toString`). -/
def numberToString : Number → String
  | Number.nan => "NaN"
  | Number.inf false => "Infinity"
  | Number.inf true => "-Infinity"
  | Number.fin K =>
    if K = 0 then "0"
    else if K < 0 then "-" ++ positiveToString K.natAbs
    else positiveToString K.natAbs

/-! ## Values and objects -/

/-- The JavaScript values that occur in the source: `undefined`, numbers and
function values (named by the function declaration they come from). -/
inductive Value where
  | undefined
  | number (n : Number)
  | function (name : String)
  deriving DecidableEq, Repr

/-- An object literal: its own properties, in insertion order. -/
abbrev Obj := List (String × Value)

/-- Own property names of an object (what `Object.keys` enumerates). -/
def Obj.keys (o : Obj) : List String :=
  o.map Prod.fst

/-- Property read `o.k`: the value of the property, `undefined` when the
object has no such property. -/
def Obj.get (o : Obj) (k : String) : Value :=
  match o.lookup k with
  | some v => v
  | none => Value.undefined

/-- Rendering of the count of a counter inside a string concatenation
(decimal digits, a leading `-` for negative numbers). -/
def numToString (n : Int) : String :=
  toString n

/-! ## counter2 (lines 19-25) -/

/-- The store of closure environments: cell `i` holds the captured variable
of the `i`-th factory invocation. -/
abbrev Store := List Int

/-- Source: `function counter2() { var num = 0; return function () {...}; }`.
Allocates a fresh environment with `num = 0` and returns the closure, given
by the address of its environment, together with the extended store. -/
def counter2 (σ : Store) : Nat × Store :=
  (σ.length, σ ++ [0])

/-- The function returned by `counter2`: `num++; return num;` on the
environment at address `c`.  Returns the returned value and the new store. -/
def counter2Inner (c : Nat) (σ : Store) : Int × Store :=
  let num := σ.getD c 0 + 1
  (num, σ.set c num)

/-- The values returned by `n` successive calls of the closure `c`, and the
store after them. -/
def callTimes (c : Nat) : Nat → Store → List Int × Store
  | 0, σ => ([], σ)
  | n + 1, σ =>
    let r := counter2Inner c σ
    let rest := callTimes c n r.2
    (r.1 :: rest.1, rest.2)

/-- An interleaving of calls on two closures `a` and `b`: `true` is a call of
`a`, `false` a call of `b`.  Returns the value of every call, in order, and
the final store. -/
def callSeq (a b : Nat) : List Bool → Store → List Int × Store
  | [], σ => ([], σ)
  | x :: xs, σ =>
    let r := counter2Inner (if x then a else b) σ
    let rest := callSeq a b xs r.2
    (r.1 :: rest.1, rest.2)

/-! ## Outer (lines 5-12) -/

/-- Result of one call of a closure: the returned value, the state of the
enclosed variables after the call, and the console lines the call emitted. -/
structure Outcome (α : Type) where
  ret : Value
  state : α
  out : List String

/-- Source: `function Outer() { let count = 0; function Inner() {...}; return Inner; }`.
Allocates a fresh environment with `count = 0` and returns the closure
`Inner`, given by the address of its environment. -/
def Outer (σ : Store) : Nat × Store :=
  (σ.length, σ ++ [0])

/-- Source: `function Inner() { count++; console.log("Inner: " + count); }` on
the environment at address `c`.  It has no `return` statement. -/
def Inner (c : Nat) (σ : Store) : Outcome Store :=
  let count := σ.getD c 0 + 1
  ⟨Value.undefined, σ.set c count, ["Inner: " ++ numToString count]⟩

/-- The returned value and the emitted lines of each of `n` successive calls
of the closure `Inner` at address `c`, and the store after them. -/
def innerTimes (c : Nat) : Nat → Store → List (Value × List String) × Store
  | 0, σ => ([], σ)
  | n + 1, σ =>
    let r := Inner c σ
    let rest := innerTimes c n r.state
    ((r.ret, r.out) :: rest.1, rest.2)

/-! ## Car (lines 57-74) -/

/-- One invocation of `Car`: the returned object and the four constants its
two functions close over. -/
structure CarInstance where
  self : Obj
  model : String
  name : String
  color : String
  manufacturedAt : String
  deriving DecidableEq, Repr

/-- Source: `function Car()`: binds the four constants and returns
`{ carModel, carDetails }`. -/
def Car : CarInstance :=
  ⟨[("carModel", Value.function "carModel"), ("carDetails", Value.function "carDetails")],
    "Model 1", "Toyota", "Black", "24/2025"⟩

/-- Source: `function carModel() { console.log(model); console.log(manufacturedAt); }`. -/
def carModel (car : CarInstance) : Outcome CarInstance :=
  ⟨Value.undefined, car, [car.model, car.manufacturedAt]⟩

/-- Source: `function carDetails() { console.log(name); console.log(color); }`. -/
def carDetails (car : CarInstance) : Outcome CarInstance :=
  ⟨Value.undefined, car, [car.name, car.color]⟩

/-- A call of one of the two operations of a car instance. -/
inductive CarOp where
  | carModel
  | carDetails
  deriving DecidableEq, Repr

/-- Executes one call on a car instance. -/
def CarOp.exec : CarOp → CarInstance → Outcome CarInstance
  | CarOp.carModel, car => Closures.carModel car
  | CarOp.carDetails, car => Closures.carDetails car

/-- Executes a sequence of calls on a car instance, in order; returns the
instance after them and everything they logged. -/
def runCar : List CarOp → CarInstance → CarInstance × List String
  | [], car => (car, [])
  | op :: ops, car =>
    let r := op.exec car
    let rest := runCar ops r.state
    (rest.1, r.out ++ rest.2)

/-! ## createAccount (lines 81-106) -/

/-- One invocation of `createAccount`: the returned object and the variable
`balance` its three functions close over. -/
structure Account where
  self : Obj
  balance : Number
  deriving DecidableEq, Repr

/-- Source: `function createAccount(initialBalance)`: `let balance = initialBalance`
and `return { deposit, withdraw, getBalance }`. -/
def createAccount (initialBalance : Number) : Account :=
  ⟨[("deposit", Value.function "deposit"), ("withdraw", Value.function "withdraw"),
     ("getBalance", Value.function "getBalance")], initialBalance⟩

/-- Source: `function deposit(amount)` (lines 84-89). -/
def deposit (amount : Number) (acc : Account) : Outcome Account :=
  if amount > 0 then
    ⟨Value.undefined, ⟨acc.self, acc.balance + amount⟩,
      ["Deposited ₹" ++ numberToString amount ++ "."]⟩
  else
    ⟨Value.undefined, acc, []⟩

/-- The message `withdraw` logs when it rejects a call. -/
def failureMessage : String :=
  "Insufficient balance or invalid amount."

/-- Source: `function withdraw(amount)` (lines 91-98). -/
def withdraw (amount : Number) (acc : Account) : Outcome Account :=
  if amount > 0 ∧ amount ≤ acc.balance then
    ⟨Value.undefined, ⟨acc.self, acc.balance - amount⟩,
      ["Withdrew ₹" ++ numberToString amount ++ "."]⟩
  else
    ⟨Value.undefined, acc, [failureMessage]⟩

/-- Source: `function getBalance()` (lines 100-102). -/
def getBalance (acc : Account) : Outcome Account :=
  ⟨Value.undefined, acc, ["Current Balance: ₹" ++ numberToString acc.balance]⟩

/-- A call of one of the three operations of an account. -/
inductive Op where
  | deposit (amount : Number)
  | withdraw (amount : Number)
  | getBalance
  deriving DecidableEq, Repr

/-- Executes one call on an account. -/
def Op.exec : Op → Account → Outcome Account
  | Op.deposit amount, acc => Closures.deposit amount acc
  | Op.withdraw amount, acc => Closures.withdraw amount acc
  | Op.getBalance, acc => Closures.getBalance acc

/-- Executes a sequence of calls on an account, in order; returns the account
after them and everything they logged. -/
def run : List Op → Account → Account × List String
  | [], acc => (acc, [])
  | op :: ops, acc =>
    let r := op.exec acc
    let rest := run ops r.state
    (rest.1, r.out ++ rest.2)

/-- Whether a call is a `getBalance` call. -/
def Op.isGetBalance : Op → Bool
  | Op.getBalance => true
  | _ => false

/-- A call whose amount is given as an integer. -/
inductive IntOp where
  | deposit (amount : Int)
  | withdraw (amount : Int)
  | getBalance
  deriving DecidableEq, Repr

/-- The call on the account, its amount converted to a Number. -/
def IntOp.toOp : IntOp → Op
  | IntOp.deposit amount => Op.deposit (Number.ofInt amount)
  | IntOp.withdraw amount => Op.withdraw (Number.ofInt amount)
  | IntOp.getBalance => Op.getBalance

/-- The amount of a call (0 for `getBalance`, which has none). -/
def IntOp.amount : IntOp → Int
  | IntOp.deposit amount => amount
  | IntOp.withdraw amount => amount
  | IntOp.getBalance => 0

/-- What a call can add to the balance: the amount of a deposit when it is
positive, 0 otherwise. -/
def IntOp.deposited : IntOp → Int
  | IntOp.deposit amount => if amount > 0 then amount else 0
  | _ => 0

/-! ## Reading the console back -/

/-- Reads a run of decimal digits, most significant digit first, continuing
from the value `acc` read so far; `none` when a character is not a digit. -/
def readDigits : Nat → List Char → Option Nat
  | acc, [] => some acc
  | acc, c :: cs => if c.isDigit then readDigits (acc * 10 + (c.toNat - 48)) cs else none

/-- Reads a natural number from a non-empty run of decimal digits. -/
def readNat : List Char → Option Nat
  | [] => none
  | c :: cs => readDigits 0 (c :: cs)

/-- Reads an integer written in decimal digits, with a leading `-` for a
negative number (the way a safe integer is rendered). -/
def readNum (cs : List Char) : Option Int :=
  match readNat cs with
  | some n => some (n : Int)
  | none =>
    match cs with
    | [] => none
    | c :: ds => if c = '-' then (readNat ds).map (fun n => -(n : Int)) else none

/-- Removes the characters of `tag` from the front of a line; `none` when
the line does not start with `tag`. -/
def stripTag : List Char → List Char → Option (List Char)
  | [], rest => some rest
  | _ :: _, [] => none
  | t :: ts, c :: cs => if t = c then stripTag ts cs else none

/-- The amount of a console line of the form `tag`, amount, `.` (the lines
`Deposited ₹a.` and `Withdrew ₹a.`) whose amount is an integer in decimal
digits; `none` for any other line, also for an amount printed in another
form such as `1e+21`. -/
def amountIn (tag : String) (line : String) : Option Int :=
  match stripTag tag.data line.data with
  | none => none
  | some rest => if rest.getLast? = some '.' then readNum rest.dropLast else none

/-- Sum of the amounts in the `Deposited ₹a.` lines of a console log. -/
def depositedTotal (log : List String) : Int :=
  (log.filterMap (amountIn "Deposited ₹")).sum

/-- Sum of the amounts in the `Withdrew ₹a.` lines of a console log. -/
def withdrewTotal (log : List String) : Int :=
  (log.filterMap (amountIn "Withdrew ₹")).sum

/-! ## Lemmas on JavaScript numbers -/

theorem log2Search_le (a : Nat) (es : List Nat) (acc : Nat) (h : 2 ^ acc ≤ a) :
    2 ^ log2Search a es acc ≤ a := by
  induction es generalizing acc with
  | nil => exact h
  | cons e es ih =>
    unfold log2Search
    by_cases he : a ≥ 2 ^ (acc + e)
    · rw [if_pos he]
      exact ih (acc + e) he
    · rw [if_neg he]
      exact ih acc h

theorem floorLog2_le (a : Nat) (h : 1 ≤ a) : 2 ^ floorLog2 a ≤ a :=
  log2Search_le a _ 0 (by simpa using h)

theorem floorLog2_zero : floorLog2 0 = 0 := by decide

theorem floorLog2_lt (a k : Nat) (h : a < 2 ^ k) : floorLog2 a < k ∨ a = 0 := by
  by_cases h0 : a = 0
  · exact Or.inr h0
  · left
    have h1 : 2 ^ floorLog2 a ≤ a := floorLog2_le a (Nat.one_le_iff_ne_zero.mpr h0)
    exact (Nat.pow_lt_pow_iff_right (by decide : 1 < 2)).mp (lt_of_le_of_lt h1 h)

theorem roundFrac_exact (a sh : Nat) (hsh : floorLog2 (a / 1) + 1 - 53 = sh) (hdvd : 2 ^ sh ∣ a) :
    roundFrac a 1 = a := by
  unfold roundFrac
  simp only [hsh, Nat.one_mul]
  have hr : a % 2 ^ sh = 0 := Nat.mod_eq_zero_of_dvd hdvd
  have hg : 0 < 2 ^ sh := Nat.two_pow_pos _
  rw [hr]
  have hno : ¬ (2 * 0 > 2 ^ sh ∨ (2 * 0 = 2 ^ sh ∧ a / 2 ^ sh % 2 = 1)) := by
    intro hc
    rcases hc with hc | hc
    · omega
    · omega
  rw [if_neg hno]
  exact Nat.div_mul_cancel hdvd

theorem roundFrac_units (m : Nat) (h : m < 2 ^ 53) :
    roundFrac (m * unitsPerOne) 1 = m * unitsPerOne := by
  have hlt : m * unitsPerOne < 2 ^ 1127 := by
    have h2 : m * 2 ^ 1074 < 2 ^ 53 * 2 ^ 1074 :=
      Nat.mul_lt_mul_of_pos_right h (Nat.two_pow_pos _)
    rw [← Nat.pow_add] at h2
    exact h2
  apply roundFrac_exact _ _ rfl
  rw [Nat.div_one]
  rcases floorLog2_lt _ _ hlt with hl | h0
  · have hle : floorLog2 (m * unitsPerOne) + 1 - 53 ≤ 1074 := by omega
    exact Dvd.dvd.mul_left (Nat.pow_dvd_pow 2 hle) m
  · rw [h0, floorLog2_zero]
    exact Nat.dvd_zero _

theorem unitsPerOne_pos : 0 < unitsPerOne := Nat.two_pow_pos 1074

theorem unitsPerOne_pos_int : (0 : Int) < (unitsPerOne : Int) :=
  Int.ofNat_lt.mpr unitsPerOne_pos

theorem natAbs_lt_of_safe (n : Int) (h : isSafeInteger n) : n.natAbs < 2 ^ 53 := by
  have h1 := h.1
  have h2 := h.2
  simp only [maxSafeInteger] at h1 h2
  omega

theorem natAbs_mul_units (n : Int) : (n * (unitsPerOne : Int)).natAbs = n.natAbs * unitsPerOne := by
  rw [Int.natAbs_mul, Int.natAbs_ofNat]

theorem units_lt_overflow (m : Nat) (h : m < 2 ^ 53) : m * unitsPerOne < overflowUnits := by
  have h2 : m * 2 ^ 1074 < 2 ^ 53 * 2 ^ 1074 :=
    Nat.mul_lt_mul_of_pos_right h (Nat.two_pow_pos _)
  rw [← Nat.pow_add] at h2
  have h3 : (2 : Nat) ^ (53 + 1074) ≤ 2 ^ 2098 := Nat.pow_le_pow_right (by decide) (by decide)
  exact lt_of_lt_of_le h2 h3

theorem mul_units_neg_iff (n : Int) : n * (unitsPerOne : Int) < 0 ↔ n < 0 := by
  constructor
  · intro h
    by_contra hn
    have h0 : 0 ≤ n * (unitsPerOne : Int) :=
      Int.mul_nonneg (not_lt.mp hn) (le_of_lt unitsPerOne_pos_int)
    omega
  · intro h
    exact Int.mul_neg_of_neg_of_pos h unitsPerOne_pos_int

theorem roundUnits_units (n : Int) (h : isSafeInteger n) :
    roundUnits (n * (unitsPerOne : Int)) = Number.fin (n * (unitsPerOne : Int)) := by
  have hm := natAbs_lt_of_safe n h
  have hlt : ¬ (n.natAbs * unitsPerOne ≥ overflowUnits) := not_le.mpr (units_lt_overflow _ hm)
  unfold roundUnits
  simp only [natAbs_mul_units, roundFrac_units _ hm, if_neg hlt]
  congr 1
  by_cases hneg : n * (unitsPerOne : Int) < 0
  · rw [if_pos hneg, ← natAbs_mul_units]
    omega
  · rw [if_neg hneg, ← natAbs_mul_units]
    omega

theorem Number.ofInt_safe (n : Int) (h : isSafeInteger n) :
    Number.ofInt n = Number.fin (n * (unitsPerOne : Int)) :=
  roundUnits_units n h

theorem Number.zero_def : (0 : Number) = Number.fin 0 := by
  decide

theorem Number.toInt?_ofInt (n : Int) (h : isSafeInteger n) : (Number.ofInt n).toInt? = some n := by
  rw [Number.ofInt_safe n h]
  have hne : (unitsPerOne : Int) ≠ 0 := ne_of_gt unitsPerOne_pos_int
  simp only [Number.toInt?, Int.mul_emod_left, if_true, Int.mul_ediv_cancel _ hne]

theorem Number.ofInt_pos_iff (n : Int) (h : isSafeInteger n) : Number.ofInt n > 0 ↔ n > 0 := by
  rw [Number.ofInt_safe n h, Number.zero_def]
  show Number.lt (Number.fin 0) (Number.fin (n * (unitsPerOne : Int))) = true ↔ n > 0
  simp only [Number.lt, decide_eq_true_eq]
  constructor
  · intro hp
    by_contra hn
    have h0 : n * (unitsPerOne : Int) ≤ 0 :=
      Int.mul_nonpos_of_nonpos_of_nonneg (not_lt.mp hn) (le_of_lt unitsPerOne_pos_int)
    omega
  · intro hp
    exact Int.mul_pos hp unitsPerOne_pos_int

theorem Number.ofInt_le_iff (a b : Int) (ha : isSafeInteger a) (hb : isSafeInteger b) :
    Number.ofInt a ≤ Number.ofInt b ↔ a ≤ b := by
  rw [Number.ofInt_safe a ha, Number.ofInt_safe b hb]
  show Number.le (Number.fin _) (Number.fin _) = true ↔ a ≤ b
  simp only [Number.le, decide_eq_true_eq]
  exact mul_le_mul_right unitsPerOne_pos_int

theorem Number.ofInt_add (a b : Int) (ha : isSafeInteger a) (hb : isSafeInteger b)
    (hab : isSafeInteger (a + b)) : Number.ofInt a + Number.ofInt b = Number.ofInt (a + b) := by
  rw [Number.ofInt_safe a ha, Number.ofInt_safe b hb, Number.ofInt_safe _ hab]
  show Number.add (Number.fin _) (Number.fin _) = _
  simp only [Number.add]
  rw [← Int.add_mul]
  exact roundUnits_units _ hab

theorem Number.ofInt_sub (a b : Int) (ha : isSafeInteger a) (hb : isSafeInteger b)
    (hab : isSafeInteger (a - b)) : Number.ofInt a - Number.ofInt b = Number.ofInt (a - b) := by
  rw [Number.ofInt_safe a ha, Number.ofInt_safe b hb, Number.ofInt_safe _ hab]
  show Number.add (Number.fin _) (Number.neg (Number.fin _)) = _
  simp only [Number.add, Number.neg]
  rw [← Int.neg_mul, ← Int.add_mul, ← Int.sub_eq_add_neg]
  exact roundUnits_units _ hab

theorem positiveToString_units (m : Nat) (h : m < 2 ^ 53) :
    positiveToString (m * unitsPerOne) = toString m := by
  have hmod : m * unitsPerOne % unitsPerOne = 0 := Nat.mul_mod_left m unitsPerOne
  have hdiv : m * unitsPerOne / unitsPerOne = m := Nat.mul_div_cancel m unitsPerOne_pos
  have hle : m ≤ 2 ^ 53 - 1 := by omega
  unfold positiveToString
  rw [hdiv, if_pos ⟨hmod, hle⟩]

theorem numberToString_ofInt (n : Int) (h : isSafeInteger n) :
    numberToString (Number.ofInt n) = toString n := by
  rw [Number.ofInt_safe n h]
  have hm := natAbs_lt_of_safe n h
  cases n with
  | ofNat m =>
    cases m with
    | zero => rfl
    | succ k =>
      have hne : ¬ (Int.ofNat (k + 1) * (unitsPerOne : Int) = 0) := by
        have hp : 0 < Int.ofNat (k + 1) * (unitsPerOne : Int) :=
          Int.mul_pos (Int.ofNat_lt.mpr (Nat.succ_pos k)) unitsPerOne_pos_int
        omega
      have hnn : ¬ (Int.ofNat (k + 1) * (unitsPerOne : Int) < 0) := by
        rw [mul_units_neg_iff]
        exact not_lt.mpr (Int.ofNat_nonneg _)
      simp only [numberToString, if_neg hne, if_neg hnn, natAbs_mul_units]
      exact positiveToString_units _ hm
  | negSucc k =>
    have hneg : Int.negSucc k * (unitsPerOne : Int) < 0 := by
      rw [mul_units_neg_iff]
      exact Int.negSucc_lt_zero k
    have hne : ¬ (Int.negSucc k * (unitsPerOne : Int) = 0) := by omega
    simp only [numberToString, if_neg hne, if_pos hneg, natAbs_mul_units]
    rw [positiveToString_units _ hm]
    rfl

theorem roundUnits_nonneg (K : Int) (h : 0 ≤ K) : (0 : Number) ≤ roundUnits K := by
  rw [Number.zero_def]
  have hneg : ¬ (K < 0) := not_lt.mpr h
  unfold roundUnits
  by_cases hov : roundFrac K.natAbs 1 ≥ overflowUnits
  · simp only [if_pos hov, decide_eq_false hneg]
    rfl
  · simp only [if_neg hov, if_neg hneg]
    show Number.le (Number.fin 0) (Number.fin _) = true
    simp only [Number.le, decide_eq_true_eq]
    exact Int.ofNat_nonneg _

theorem Number.not_pos_of_le_zero (a : Number) (h : a ≤ 0) : ¬ a > 0 := by
  rw [Number.zero_def] at h
  rw [gt_iff_lt, Number.zero_def]
  cases a with
  | nan => exact fun hc => Bool.noConfusion hc
  | inf n =>
    cases n with
    | false => exact fun _ => Bool.noConfusion h
    | true => exact fun hc => Bool.noConfusion hc
  | fin k =>
    intro hc
    have h1 : k ≤ 0 := of_decide_eq_true h
    have h2 : 0 < k := of_decide_eq_true hc
    omega

theorem Number.not_pos_and_le_zero (a : Number) : ¬ (a > 0 ∧ a ≤ 0) :=
  fun h => Number.not_pos_of_le_zero a h.2 h.1

theorem Number.add_nonneg (b a : Number) (hb : 0 ≤ b) (ha : a > 0) : 0 ≤ b + a := by
  rw [Number.zero_def] at hb ⊢
  rw [gt_iff_lt, Number.zero_def] at ha
  cases b with
  | nan => exact Bool.noConfusion hb
  | inf nb =>
    cases nb with
    | true => exact Bool.noConfusion hb
    | false =>
      cases a with
      | nan => exact Bool.noConfusion ha
      | inf na =>
        cases na with
        | true => exact Bool.noConfusion ha
        | false => rfl
      | fin ka => rfl
  | fin kb =>
    cases a with
    | nan => exact Bool.noConfusion ha
    | inf na =>
      cases na with
      | true => exact Bool.noConfusion ha
      | false => rfl
    | fin ka =>
      have h1 : 0 ≤ kb := of_decide_eq_true hb
      have h2 : 0 < ka := of_decide_eq_true ha
      have h3 := roundUnits_nonneg (kb + ka) (by omega)
      rw [Number.zero_def] at h3
      exact h3

theorem Number.sub_nonneg (b a : Number) (ha : a > 0) (hab : a ≤ b)
    (hinf : a ≠ Number.inf false) : 0 ≤ b - a := by
  rw [gt_iff_lt, Number.zero_def] at ha
  rw [Number.zero_def]
  cases a with
  | nan => exact Bool.noConfusion ha
  | inf na =>
    cases na with
    | true => exact Bool.noConfusion ha
    | false => exact absurd rfl hinf
  | fin ka =>
    cases b with
    | nan => exact Bool.noConfusion hab
    | inf nb =>
      cases nb with
      | true => exact Bool.noConfusion hab
      | false => rfl
    | fin kb =>
      have h1 : ka ≤ kb := of_decide_eq_true hab
      have h3 := roundUnits_nonneg (kb + -ka) (by omega)
      rw [Number.zero_def] at h3
      exact h3

theorem Number.fin_sub_self (k : Int) : Number.fin k - Number.fin k = 0 := by
  rw [Number.zero_def]
  show Number.add (Number.fin k) (Number.neg (Number.fin k)) = Number.fin 0
  simp only [Number.add, Number.neg, Int.add_right_neg]
  decide

theorem Number.le_refl_fin (k : Int) : Number.fin k ≤ Number.fin k := by
  show Number.le (Number.fin k) (Number.fin k) = true
  simp only [Number.le, decide_eq_true_eq, le_refl]

/-- Sample values of the arithmetic: rounding at `2^53`, overflow to
`Infinity`, `Infinity - Infinity`, and comparison with `NaN`. -/
theorem number_samples :
    ((9007199254740992 : Number) + 1).toInt? = some 9007199254740992
    ∧ ((9007199254740994 : Number) - 1).toInt? = some 9007199254740992
    ∧ Number.ofInt ((10 ^ 308 : Nat) : Int) + Number.ofInt ((10 ^ 308 : Nat) : Int)
        = Number.inf false
    ∧ Number.inf false - Number.inf false = Number.nan
    ∧ ¬ (Number.nan ≤ Number.nan)
    ∧ ¬ ((0 : Number) < Number.nan) := by
  decide

/-- Sample values of the Number to string conversion of integers and special
values: exponent form from `1e21` on, the shortest decimal of a large
integer, `2^53`, a negative number, `NaN` and `-Infinity`. -/
theorem numberToString_samples :
    numberToString 1000000000000000000000 = "1e+21"
    ∧ numberToString 999999999999999868928 = "999999999999999900000"
    ∧ numberToString 9007199254740992 = "9007199254740992"
    ∧ numberToString (-5) = "-5"
    ∧ numberToString Number.nan = "NaN"
    ∧ numberToString (Number.inf true) = "-Infinity" := by
  decide

/-- Sample values of the Number to string conversion of non-integers: `0.1`,
`0.1 + 0.2`, `1.5`, `123.456`, `0.000001` and `1e-7`. -/
theorem numberToString_fraction_samples :
    numberToString (Number.fin (roundFrac unitsPerOne 10)) = "0.1"
    ∧ numberToString
        (Number.fin (roundFrac unitsPerOne 10) + Number.fin (roundFrac (2 * unitsPerOne) 10))
        = "0.30000000000000004"
    ∧ numberToString (Number.fin (roundFrac (3 * unitsPerOne) 2)) = "1.5"
    ∧ numberToString (Number.fin (roundFrac (123456 * unitsPerOne) 1000)) = "123.456"
    ∧ numberToString (Number.fin (roundFrac unitsPerOne 1000000)) = "0.000001"
    ∧ numberToString (Number.fin (roundFrac unitsPerOne 10000000)) = "1e-7" := by
  decide

/-- On sample safe integers the shortest decimal is the plain decimal
digits, which is what `positiveToString` prints for a safe integer. -/
theorem shortestToString_samples :
    shortestToString (1 * unitsPerOne) = "1"
    ∧ shortestToString (1500 * unitsPerOne) = "1500"
    ∧ shortestToString (1000000 * unitsPerOne) = "1000000"
    ∧ shortestToString (123456789012 * unitsPerOne) = "123456789012"
    ∧ shortestToString (4503599627370497 * unitsPerOne) = "4503599627370497"
    ∧ shortestToString (9007199254740991 * unitsPerOne) = "9007199254740991" := by
  decide

/-! ## Lemmas on the store -/

theorem getD_append_cell (σ : Store) (v : Int) (τ : Store) :
    (σ ++ v :: τ).getD σ.length 0 = v := by
  induction σ with
  | nil => rfl
  | cons x xs ih => simpa only [List.cons_append, List.length_cons, List.getD_cons_succ] using ih

theorem set_append_cell (σ : Store) (v w : Int) (τ : Store) :
    (σ ++ v :: τ).set σ.length w = σ ++ w :: τ := by
  induction σ with
  | nil => rfl
  | cons x xs ih => simp [List.set, ih]

theorem counter2Inner_cell (σ : Store) (v : Int) (τ : Store) :
    counter2Inner σ.length (σ ++ v :: τ) = (v + 1, σ ++ (v + 1) :: τ) := by
  simp only [counter2Inner, getD_append_cell, set_append_cell]

theorem callTimes_cell (σ : Store) (τ : Store) (n : Nat) (v : Int) :
    callTimes σ.length n (σ ++ v :: τ)
      = ((List.range n).map (fun (i : Nat) => v + 1 + (i : Int)),
          σ ++ (v + (n : Int)) :: τ) := by
  induction n generalizing v with
  | zero => simp [callTimes]
  | succ n ih =>
    simp only [callTimes, counter2Inner_cell, ih]
    refine Prod.ext ?_ ?_
    · simp only [List.range_succ_eq_map, List.map_cons, List.map_map]
      refine congrArg₂ _ (by simp) ?_
      apply List.map_congr_left
      intro i _
      simp only [Function.comp, Nat.cast_succ]
      ring
    · simp only [Nat.cast_succ]
      congr 2
      ring

theorem counter2Inner_second (σ : Store) (va vb : Int) :
    counter2Inner (σ.length + 1) (σ ++ [va, vb]) = (vb + 1, σ ++ [va, vb + 1]) := by
  have h := counter2Inner_cell (σ ++ [va]) vb []
  simpa only [List.length_append, List.length_singleton, List.append_assoc,
    List.singleton_append] using h

theorem callSeq_append (a b : Nat) (xs ys : List Bool) (σ : Store) :
    callSeq a b (xs ++ ys) σ
      = ((callSeq a b xs σ).1 ++ (callSeq a b ys (callSeq a b xs σ).2).1,
          (callSeq a b ys (callSeq a b xs σ).2).2) := by
  induction xs generalizing σ with
  | nil => simp [callSeq]
  | cons x xs ih => simp [callSeq, ih]

theorem callSeq_store (σ : Store) (calls : List Bool) (va vb : Int) :
    (callSeq σ.length (σ.length + 1) calls (σ ++ [va, vb])).2
      = σ ++ [va + (calls.count true : Nat), vb + (calls.count false : Nat)] := by
  induction calls generalizing va vb with
  | nil => simp [callSeq]
  | cons x xs ih =>
    cases x
    · simp only [callSeq, Bool.false_eq_true, if_false, counter2Inner_second, ih,
        List.count_cons_self, List.count_cons_of_ne (by decide : true ≠ false), Nat.cast_succ]
      rw [add_right_comm, add_assoc]
    · simp only [callSeq, if_true, counter2Inner_cell, ih,
        List.count_cons_self, List.count_cons_of_ne (by decide : false ≠ true), Nat.cast_succ]
      rw [add_right_comm, add_assoc]

/-! ## The counter factory -/

/-- C1: for every `N >= 1` and every `k` with `1 <= k <= N`, the `k`-th of `N`
successive calls of the function returned by one `counter2()` invocation
returns exactly `k`; the internal count starts at 0, the first call on a fresh
invocation returns 1, and after the `N` calls the count is `N`. -/
theorem counter2_kth_call (σ : Store) (N k : Nat) (h1 : 1 ≤ k) (hk : k ≤ N) :
    (callTimes (counter2 σ).1 N (counter2 σ).2).1[k - 1]? = some (k : Int)
    ∧ (counter2 σ).2.getD (counter2 σ).1 0 = 0
    ∧ (counter2Inner (counter2 σ).1 (counter2 σ).2).1 = 1
    ∧ (callTimes (counter2 σ).1 N (counter2 σ).2).2.getD (counter2 σ).1 0 = (N : Int) := by
  have hkN : k - 1 < N := by omega
  refine ⟨?_, ?_, ?_, ?_⟩
  · simp only [counter2, callTimes_cell]
    rw [List.getElem?_map, List.getElem?_range hkN]
    simp only [Option.map_some']
    congr 1
    have : ((k - 1 : Nat) : Int) = (k : Int) - 1 := by omega
    rw [this]
    ring
  · simp only [counter2, getD_append_cell]
  · simp only [counter2, counter2Inner_cell]
    rfl
  · simp only [counter2, callTimes_cell, getD_append_cell]
    ring

/-- Witness of C1: the third of five calls returns 3. -/
theorem counter2_kth_call_witness :
    (1 ≤ 3 ∧ 3 ≤ 5)
    ∧ (callTimes (counter2 []).1 5 (counter2 []).2).1[3 - 1]? = some ((3 : Nat) : Int) :=
  ⟨by decide, (counter2_kth_call [] 5 3 (by decide) (by decide)).1⟩

/-- C2: two counters `A` and `B` from two separate `counter2()` invocations
(`B` created after any number `n` of calls on `A`) have distinct
environments, and in every interleaving of calls each call on `B` returns the
number of calls made on `B` so far, this one included, whatever was called on
`A`; each call on `A` returns the number of calls made on `A` so far.  In
particular `c1(), c1()` return 1, 2 and a later-created `c2()` returns 1. -/
theorem counter2_independent (σ : Store) (n : Nat) (calls : List Bool) (x : Bool) :
    (counter2 σ).1 ≠ (counter2 (callTimes (counter2 σ).1 n (counter2 σ).2).2).1
    ∧ (callSeq (counter2 σ).1 (counter2 (callTimes (counter2 σ).1 n (counter2 σ).2).2).1
          (calls ++ [x]) (counter2 (callTimes (counter2 σ).1 n (counter2 σ).2).2).2).1
        = (callSeq (counter2 σ).1 (counter2 (callTimes (counter2 σ).1 n (counter2 σ).2).2).1
            calls (counter2 (callTimes (counter2 σ).1 n (counter2 σ).2).2).2).1
          ++ [if x then (n : Int) + (calls.count true : Nat) + 1
              else (calls.count false : Nat) + 1]
    ∧ (callTimes (counter2 []).1 2 (counter2 []).2).1 = [1, 2]
    ∧ (counter2Inner (counter2 (callTimes (counter2 []).1 2 (counter2 []).2).2).1
          (counter2 (callTimes (counter2 []).1 2 (counter2 []).2).2).2).1 = 1 := by
  have hstore : (counter2 (callTimes (counter2 σ).1 n (counter2 σ).2).2)
      = (σ.length + 1, σ ++ [(n : Int), 0]) := by
    simp only [counter2, callTimes_cell, List.length_append, List.length_singleton,
      List.append_assoc, List.singleton_append, zero_add]
  refine ⟨?_, ?_, by decide, by decide⟩
  · rw [hstore]
    simp only [counter2]
    omega
  · rw [hstore]
    simp only [counter2, callSeq_append, callSeq_store]
    congr 1
    cases x
    · simp only [callSeq, Bool.false_eq_true, if_false, counter2Inner_second, zero_add]
    · simp only [callSeq, if_true, counter2Inner_cell]

/-! ## The account factory: single calls -/

theorem withdrew_ne_failureMessage (t : String) :
    "Withdrew ₹" ++ t ++ "." ≠ failureMessage := by
  intro h
  have h2 := congrArg (fun u => u.data.head?) h
  simp only [failureMessage, String.data_append, List.cons_append, List.head?_cons,
    Option.some.injEq] at h2
  exact absurd h2 (by decide)

theorem deposit_of_pos (a : Number) (acc : Account) (h : a > 0) :
    deposit a acc = ⟨Value.undefined, ⟨acc.self, acc.balance + a⟩,
      ["Deposited ₹" ++ numberToString a ++ "."]⟩ := by
  simp only [deposit, if_pos h]

theorem deposit_of_not_pos (a : Number) (acc : Account) (h : ¬ a > 0) :
    deposit a acc = ⟨Value.undefined, acc, []⟩ := by
  simp only [deposit, if_neg h]

theorem withdraw_of_guard (a : Number) (acc : Account) (h : a > 0 ∧ a ≤ acc.balance) :
    withdraw a acc = ⟨Value.undefined, ⟨acc.self, acc.balance - a⟩,
      ["Withdrew ₹" ++ numberToString a ++ "."]⟩ := by
  simp only [withdraw, if_pos h]

theorem withdraw_of_not_guard (a : Number) (acc : Account)
    (h : ¬ (a > 0 ∧ a ≤ acc.balance)) :
    withdraw a acc = ⟨Value.undefined, acc, [failureMessage]⟩ := by
  simp only [withdraw, if_neg h]

theorem withdraw_guard_no_failure (a : Number) (acc : Account)
    (h : a > 0 ∧ a ≤ acc.balance) :
    failureMessage ∉ (withdraw a acc).out := by
  rw [withdraw_of_guard a acc h]
  intro hmem
  exact withdrew_ne_failureMessage (numberToString a) (List.mem_singleton.mp hmem).symm

/-! ### Calls with safe integers -/

theorem isSafeInteger_of_between (lo n hi : Int) (hlo : isSafeInteger lo) (hhi : isSafeInteger hi)
    (h1 : lo ≤ n) (h2 : n ≤ hi) : isSafeInteger n :=
  ⟨le_trans hlo.1 h1, le_trans h2 hhi.2⟩

theorem isSafeInteger_zero : isSafeInteger 0 := by
  decide

theorem deposit_ofInt (self : Obj) (b n : Int) (hb : isSafeInteger b) (hn : isSafeInteger n)
    (hbn : isSafeInteger (b + n)) (hpos : n > 0) :
    deposit (Number.ofInt n) ⟨self, Number.ofInt b⟩
      = ⟨Value.undefined, ⟨self, Number.ofInt (b + n)⟩,
          ["Deposited ₹" ++ toString n ++ "."]⟩ := by
  rw [deposit_of_pos _ _ ((Number.ofInt_pos_iff n hn).mpr hpos), numberToString_ofInt n hn]
  show (⟨Value.undefined, ⟨self, Number.ofInt b + Number.ofInt n⟩, _⟩ : Outcome Account) = _
  rw [Number.ofInt_add b n hb hn hbn]

theorem deposit_ofInt_ignored (self : Obj) (b n : Int) (hn : isSafeInteger n) (hpos : ¬ n > 0) :
    deposit (Number.ofInt n) ⟨self, Number.ofInt b⟩
      = ⟨Value.undefined, ⟨self, Number.ofInt b⟩, []⟩ :=
  deposit_of_not_pos _ _ (fun h => hpos ((Number.ofInt_pos_iff n hn).mp h))

theorem withdraw_ofInt (self : Obj) (b n : Int) (hb : isSafeInteger b) (hn : isSafeInteger n)
    (hpos : n > 0) (hle : n ≤ b) :
    withdraw (Number.ofInt n) ⟨self, Number.ofInt b⟩
      = ⟨Value.undefined, ⟨self, Number.ofInt (b - n)⟩,
          ["Withdrew ₹" ++ toString n ++ "."]⟩ := by
  have hsub : isSafeInteger (b - n) :=
    isSafeInteger_of_between 0 (b - n) b isSafeInteger_zero hb (by omega) (by omega)
  have hguard : Number.ofInt n > 0 ∧ Number.ofInt n ≤ (⟨self, Number.ofInt b⟩ : Account).balance :=
    ⟨(Number.ofInt_pos_iff n hn).mpr hpos, (Number.ofInt_le_iff n b hn hb).mpr hle⟩
  rw [withdraw_of_guard _ _ hguard, numberToString_ofInt n hn]
  show (⟨Value.undefined, ⟨self, Number.ofInt b - Number.ofInt n⟩, _⟩ : Outcome Account) = _
  rw [Number.ofInt_sub b n hb hn hsub]

theorem withdraw_ofInt_rejected (self : Obj) (b n : Int) (hb : isSafeInteger b)
    (hn : isSafeInteger n) (hno : ¬ (n > 0 ∧ n ≤ b)) :
    withdraw (Number.ofInt n) ⟨self, Number.ofInt b⟩
      = ⟨Value.undefined, ⟨self, Number.ofInt b⟩, [failureMessage]⟩ :=
  withdraw_of_not_guard _ _
    (fun h => hno ⟨(Number.ofInt_pos_iff n hn).mp h.1, (Number.ofInt_le_iff n b hn hb).mp h.2⟩)

theorem getBalance_ofInt (self : Obj) (b : Int) (hb : isSafeInteger b) :
    getBalance ⟨self, Number.ofInt b⟩
      = ⟨Value.undefined, ⟨self, Number.ofInt b⟩, ["Current Balance: ₹" ++ toString b]⟩ := by
  simp only [getBalance, numberToString_ofInt b hb]

/-! ### The claims on single calls -/

/-- Counterexample to C3 as stated: on balance `2^53 = 9007199254740992`,
`deposit(1)` is accepted (it logs `Deposited ₹1.`) but the balance is still
9007199254740992, not 9007199254740993; and `deposit(1e21)` logs
`Deposited ₹1e+21.`, not the digits of the amount. -/
theorem deposit_sum_not_exact :
    (1 : Number) > 0
    ∧ (createAccount 9007199254740992).balance.toInt? = some 9007199254740992
    ∧ (deposit 1 (createAccount 9007199254740992)).out = ["Deposited ₹1."]
    ∧ ¬ ((deposit 1 (createAccount 9007199254740992)).state.balance.toInt?
          = some (9007199254740992 + 1))
    ∧ (deposit 1 (createAccount 9007199254740992)).state.balance.toInt?
        = some 9007199254740992
    ∧ (deposit 1000000000000000000000 (createAccount 0)).out = ["Deposited ₹1e+21."] := by
  decide

/-- C3, amended: for every current balance `b` and every amount `a` with
`a > 0`, `deposit(a)` sets the balance to the JavaScript sum `b + a` (the
double nearest the exact sum) and logs the single line
`Deposited ₹` + String(a) + `.`; when `b`, `a` and `b + a` are safe integers
the new balance is exactly `b + a` and the line shows the decimal digits of
`a`; and whenever a call of `deposit` changes the balance, its amount is
positive. -/
theorem deposit_positive (acc : Account) (a : Number) (h : a > 0) :
    (deposit a acc).state.balance = acc.balance + a
    ∧ (deposit a acc).out = ["Deposited ₹" ++ numberToString a ++ "."]
    ∧ (∀ (self : Obj) (b n : Int), isSafeInteger b → isSafeInteger n → isSafeInteger (b + n) →
        n > 0 →
        (deposit (Number.ofInt n) ⟨self, Number.ofInt b⟩).state.balance.toInt? = some (b + n)
        ∧ (deposit (Number.ofInt n) ⟨self, Number.ofInt b⟩).out
            = ["Deposited ₹" ++ toString n ++ "."])
    ∧ ∀ (acc2 : Account) (a2 : Number),
        (deposit a2 acc2).state.balance ≠ acc2.balance → a2 > 0 := by
  refine ⟨?_, ?_, ?_, ?_⟩
  · rw [deposit_of_pos a acc h]
  · rw [deposit_of_pos a acc h]
  · intro self b n hb hn hbn hpos
    rw [deposit_ofInt self b n hb hn hbn hpos]
    exact ⟨Number.toInt?_ofInt (b + n) hbn, rfl⟩
  · intro acc2 a2 hne
    by_contra hn
    rw [deposit_of_not_pos a2 acc2 hn] at hne
    exact hne rfl

/-- Witness of C3, amended: `deposit(500)` on balance 1000 gives exactly 1500
and logs `Deposited ₹500.`. -/
theorem deposit_positive_witness :
    (500 : Number) > 0
    ∧ (deposit 500 (createAccount 1000)).state.balance = (1000 : Number) + 500
    ∧ (deposit 500 (createAccount 1000)).out = ["Deposited ₹500."]
    ∧ (deposit 500 (createAccount 1000)).state.balance.toInt? = some 1500 :=
  ⟨by decide, (deposit_positive (createAccount 1000) 500 (by decide)).1,
    (deposit_positive (createAccount 1000) 500 (by decide)).2.1,
    ((deposit_positive (createAccount 1000) 500 (by decide)).2.2.1
      (createAccount 1000).self 1000 500 (by decide) (by decide) (by decide) (by decide)).1⟩

/-- C4: for every current balance `b` and every amount `a <= 0` (zero
included), `deposit(a)` is a silent no-op: the account is unchanged (the
balance stays `b`), no console line is emitted, and the call returns
`undefined`, the same value an accepted deposit returns. -/
theorem deposit_nonpositive (acc : Account) (a : Number) (h : a ≤ 0) :
    (deposit a acc).state = acc
    ∧ (deposit a acc).state.balance = acc.balance
    ∧ (deposit a acc).out = []
    ∧ (deposit a acc).ret = Value.undefined
    ∧ ∀ (acc2 : Account) (a2 : Number), (deposit a2 acc2).ret = (deposit a acc).ret := by
  have hn : ¬ a > 0 := Number.not_pos_of_le_zero a h
  rw [deposit_of_not_pos a acc hn]
  refine ⟨rfl, rfl, rfl, rfl, ?_⟩
  intro acc2 a2
  by_cases h2 : a2 > 0
  · rw [deposit_of_pos a2 acc2 h2]
  · rw [deposit_of_not_pos a2 acc2 h2]

/-- Witness of C4: from balance 1000, `deposit(-5)` leaves the balance at
1000 and logs nothing. -/
theorem deposit_nonpositive_witness :
    (-5 : Number) ≤ 0
    ∧ (deposit (-5) (createAccount 1000)).state.balance = 1000
    ∧ (deposit (-5) (createAccount 1000)).out = [] :=
  ⟨by decide, (deposit_nonpositive (createAccount 1000) (-5) (by decide)).2.1,
    (deposit_nonpositive (createAccount 1000) (-5) (by decide)).2.2.1⟩

/-- Counterexample to C5 as stated: on balance 9007199254740994,
`withdraw(1)` is accepted (it logs `Withdrew ₹1.`) but leaves
9007199254740992, not 9007199254740993. -/
theorem withdraw_difference_not_exact :
    ((1 : Number) > 0 ∧ (1 : Number) ≤ (createAccount 9007199254740994).balance)
    ∧ (createAccount 9007199254740994).balance.toInt? = some 9007199254740994
    ∧ (withdraw 1 (createAccount 9007199254740994)).out = ["Withdrew ₹1."]
    ∧ ¬ ((withdraw 1 (createAccount 9007199254740994)).state.balance.toInt?
          = some (9007199254740994 - 1))
    ∧ (withdraw 1 (createAccount 9007199254740994)).state.balance.toInt?
        = some 9007199254740992 := by
  decide

/-- C5, amended: for every current balance `b` and every amount `a` with
`a > 0` and `a <= b`, `withdraw(a)` sets the balance to the JavaScript
difference `b - a` (the double nearest the exact difference) and logs the
single line `Withdrew ₹` + String(a) + `.`, which is not the failure message;
when `b` and `a` are safe integers the new balance is exactly `b - a` and the
line shows the decimal digits of `a`. -/
theorem withdraw_accepted (acc : Account) (a : Number) (h1 : a > 0) (h2 : a ≤ acc.balance) :
    (withdraw a acc).state.balance = acc.balance - a
    ∧ (withdraw a acc).out = ["Withdrew ₹" ++ numberToString a ++ "."]
    ∧ failureMessage ∉ (withdraw a acc).out
    ∧ ∀ (self : Obj) (b n : Int), isSafeInteger b → isSafeInteger n → n > 0 → n ≤ b →
        (withdraw (Number.ofInt n) ⟨self, Number.ofInt b⟩).state.balance.toInt? = some (b - n)
        ∧ (withdraw (Number.ofInt n) ⟨self, Number.ofInt b⟩).out
            = ["Withdrew ₹" ++ toString n ++ "."] := by
  refine ⟨?_, ?_, withdraw_guard_no_failure a acc ⟨h1, h2⟩, ?_⟩
  · rw [withdraw_of_guard a acc ⟨h1, h2⟩]
  · rw [withdraw_of_guard a acc ⟨h1, h2⟩]
  · intro self b n hb hn hpos hle
    rw [withdraw_ofInt self b n hb hn hpos hle]
    have hsub : isSafeInteger (b - n) :=
      isSafeInteger_of_between 0 (b - n) b isSafeInteger_zero hb (by omega) (by omega)
    exact ⟨Number.toInt?_ofInt (b - n) hsub, rfl⟩

/-- Witness of C5, amended: `withdraw(200)` on balance 1500 gives exactly
1300 and logs `Withdrew ₹200.`. -/
theorem withdraw_accepted_witness :
    ((200 : Number) > 0 ∧ (200 : Number) ≤ (createAccount 1500).balance)
    ∧ (withdraw 200 (createAccount 1500)).state.balance = (1500 : Number) - 200
    ∧ (withdraw 200 (createAccount 1500)).out = ["Withdrew ₹200."]
    ∧ (withdraw 200 (createAccount 1500)).state.balance.toInt? = some 1300 :=
  ⟨by decide, (withdraw_accepted (createAccount 1500) 200 (by decide) (by decide)).1,
    (withdraw_accepted (createAccount 1500) 200 (by decide) (by decide)).2.1,
    ((withdraw_accepted (createAccount 1500) 200 (by decide) (by decide)).2.2.2
      (createAccount 1500).self 1500 200 (by decide) (by decide) (by decide) (by decide)).1⟩

/-- C6: `withdraw(a)` logs the failure message
`Insufficient balance or invalid amount.` if and only if
`NOT (a > 0 and a <= balance)`, and whenever it logs it the account is left
unchanged and the failure message is the only line logged. -/
theorem withdraw_rejected_iff (acc : Account) (a : Number) :
    (failureMessage ∈ (withdraw a acc).out ↔ ¬ (a > 0 ∧ a ≤ acc.balance))
    ∧ (failureMessage ∈ (withdraw a acc).out →
        (withdraw a acc).state = acc ∧ (withdraw a acc).out = [failureMessage]) := by
  by_cases h : a > 0 ∧ a ≤ acc.balance
  · have hno : failureMessage ∉ (withdraw a acc).out := withdraw_guard_no_failure a acc h
    exact ⟨⟨fun hm => absurd hm hno, fun hn => absurd h hn⟩, fun hm => absurd hm hno⟩
  · rw [withdraw_of_not_guard a acc h]
    exact ⟨⟨fun _ => h, fun _ => List.mem_singleton.mpr rfl⟩, fun _ => ⟨rfl, rfl⟩⟩

/-- Witness of C6: from balance 1000, `withdraw(2000)` reports failure and
leaves the balance at 1000. -/
theorem withdraw_rejected_iff_witness :
    failureMessage ∈ (withdraw 2000 (createAccount 1000)).out
    ∧ (withdraw 2000 (createAccount 1000)).state = createAccount 1000 :=
  ⟨(withdraw_rejected_iff (createAccount 1000) 2000).1.mpr (by decide),
    ((withdraw_rejected_iff (createAccount 1000) 2000).2
      ((withdraw_rejected_iff (createAccount 1000) 2000).1.mpr (by decide))).1⟩

/-! ## The account factory: sequences of calls -/

theorem exec_balance_nonneg (op : Op) (acc : Account) (h : (0 : Number) ≤ acc.balance)
    (hop : op ≠ Op.withdraw (Number.inf false)) :
    (0 : Number) ≤ (op.exec acc).state.balance := by
  cases op with
  | deposit a =>
    by_cases ha : a > 0
    · simp only [Op.exec, deposit_of_pos a acc ha]
      exact Number.add_nonneg acc.balance a h ha
    · simp only [Op.exec, deposit_of_not_pos a acc ha]
      exact h
  | withdraw a =>
    by_cases ha : a > 0 ∧ a ≤ acc.balance
    · simp only [Op.exec, withdraw_of_guard a acc ha]
      exact Number.sub_nonneg acc.balance a ha.1 ha.2 (fun hc => hop (congrArg Op.withdraw hc))
    · simp only [Op.exec, withdraw_of_not_guard a acc ha]
      exact h
  | getBalance => exact h

theorem run_balance_nonneg (ops : List Op) (acc : Account) (h : (0 : Number) ≤ acc.balance)
    (hops : ∀ op ∈ ops, op ≠ Op.withdraw (Number.inf false)) :
    (0 : Number) ≤ (run ops acc).1.balance := by
  induction ops generalizing acc with
  | nil => exact h
  | cons op ops ih =>
    exact ih (op.exec acc).state
      (exec_balance_nonneg op acc h (hops op (List.mem_cons_self op ops)))
      (fun o ho => hops o (List.mem_cons_of_mem op ho))

theorem exec_self (op : Op) (acc : Account) : (op.exec acc).state.self = acc.self := by
  cases op with
  | deposit a =>
    by_cases ha : a > 0
    · simp only [Op.exec, deposit_of_pos a acc ha]
    · simp only [Op.exec, deposit_of_not_pos a acc ha]
  | withdraw a =>
    by_cases ha : a > 0 ∧ a ≤ acc.balance
    · simp only [Op.exec, withdraw_of_guard a acc ha]
    · simp only [Op.exec, withdraw_of_not_guard a acc ha]
  | getBalance => rfl

theorem run_self (ops : List Op) (acc : Account) : (run ops acc).1.self = acc.self := by
  induction ops generalizing acc with
  | nil => rfl
  | cons op ops ih => exact (ih (op.exec acc).state).trans (exec_self op acc)

theorem run_filter_getBalance (ops : List Op) (acc : Account) :
    (run (ops.filter (fun o => !o.isGetBalance)) acc).1 = (run ops acc).1 := by
  induction ops generalizing acc with
  | nil => rfl
  | cons op ops ih =>
    cases op with
    | deposit a => simpa only [List.filter, Op.isGetBalance, Bool.not_false, run] using ih _
    | withdraw a => simpa only [List.filter, Op.isGetBalance, Bool.not_false, run] using ih _
    | getBalance =>
      simpa only [List.filter, Op.isGetBalance, Bool.not_true, run, Op.exec, getBalance]
        using ih acc

/-- Counterexample to C7 as stated: `createAccount(-5)` has a negative
balance right after creation, before any call; and from `createAccount(0)`,
`deposit(Infinity)` then `withdraw(Infinity)` passes the guard
`Infinity <= Infinity` and leaves the balance `NaN`, which is not `>= 0`. -/
theorem balance_negative_after_creation :
    ¬ ((0 : Number) ≤ (run [] (createAccount (-5))).1.balance)
    ∧ (0 : Number) ≤ (createAccount 0).balance
    ∧ (run [Op.deposit (Number.inf false), Op.withdraw (Number.inf false)]
        (createAccount 0)).1.balance = Number.nan
    ∧ ¬ ((0 : Number) ≤ (run [Op.deposit (Number.inf false), Op.withdraw (Number.inf false)]
        (createAccount 0)).1.balance) := by
  decide

/-- C7, amended: when the initial balance passed to `createAccount` is
`>= 0`, then for every finite sequence of `deposit`, `withdraw` and
`getBalance` calls with arbitrary amounts, none of them a `withdraw` of
`Infinity`, the balance is `>= 0` after creation and after every call of the
sequence. -/
theorem balance_never_negative (initialBalance : Number) (h : (0 : Number) ≤ initialBalance)
    (ops : List Op) (hw : ∀ op ∈ ops, op ≠ Op.withdraw (Number.inf false)) (i : Nat) :
    (0 : Number) ≤ (createAccount initialBalance).balance
    ∧ (0 : Number) ≤ (run (ops.take i) (createAccount initialBalance)).1.balance
    ∧ (0 : Number) ≤ (run ops (createAccount initialBalance)).1.balance :=
  ⟨h,
    run_balance_nonneg (ops.take i) (createAccount initialBalance) h
      (fun o ho => hw o (List.mem_of_mem_take ho)),
    run_balance_nonneg ops (createAccount initialBalance) h hw⟩

/-- Witness of C7, amended: from balance 0, a rejected withdrawal, a deposit
and an accepted withdrawal of the whole balance. -/
theorem balance_never_negative_witness :
    ((0 : Number) ≤ 0
      ∧ ∀ op ∈ [Op.withdraw 5, Op.deposit 7, Op.withdraw 7], op ≠ Op.withdraw (Number.inf false))
    ∧ (0 : Number) ≤ (run ([Op.withdraw 5, Op.deposit 7, Op.withdraw 7].take 2)
        (createAccount 0)).1.balance
    ∧ (0 : Number) ≤ (run [Op.withdraw 5, Op.deposit 7, Op.withdraw 7]
        (createAccount 0)).1.balance :=
  ⟨by decide,
    (balance_never_negative 0 (by decide) [Op.withdraw 5, Op.deposit 7, Op.withdraw 7]
      (by decide) 2).2⟩

/-- C8: `getBalance()` is a pure read: for every balance `b` it leaves the
account unchanged (the balance stays `b`) and logs the single line
`Current Balance: ₹b`; and dropping the `getBalance` calls from any sequence
of calls leaves the account, and with it the outcome (returned value, account
and logged lines) of any later `deposit`, `withdraw` or `getBalance`, the
same. -/
theorem getBalance_pure (acc : Account) (ops : List Op) (next : Op) :
    (getBalance acc).state = acc
    ∧ (getBalance acc).state.balance = acc.balance
    ∧ (getBalance acc).out = ["Current Balance: ₹" ++ numberToString acc.balance]
    ∧ (run (ops.filter (fun o => !o.isGetBalance)) acc).1 = (run ops acc).1
    ∧ next.exec (run (ops.filter (fun o => !o.isGetBalance)) acc).1
        = next.exec (run ops acc).1
    ∧ (getBalance (createAccount 1500)).out = ["Current Balance: ₹1500"] := by
  refine ⟨rfl, rfl, rfl, run_filter_getBalance ops acc, ?_, by decide⟩
  rw [run_filter_getBalance ops acc]

/-- C9: for every initial balance and after any sequence of operations, the
object returned by `createAccount` has exactly the members `deposit`,
`withdraw` and `getBalance`, and reading its `balance` member yields
`undefined` (no such property), not the balance. -/
theorem balance_not_a_member (initialBalance : Number) (ops : List Op) :
    (run ops (createAccount initialBalance)).1.self.keys = ["deposit", "withdraw", "getBalance"]
    ∧ (run ops (createAccount initialBalance)).1.self.lookup "balance" = none
    ∧ (run ops (createAccount initialBalance)).1.self.get "balance" = Value.undefined
    ∧ (run ops (createAccount initialBalance)).1.self.get "balance"
        ≠ Value.number (run ops (createAccount initialBalance)).1.balance := by
  rw [run_self ops (createAccount initialBalance)]
  have hget : (createAccount initialBalance).self.get "balance" = Value.undefined := rfl
  refine ⟨rfl, rfl, hget, ?_⟩
  rw [hget]
  exact fun hc => Value.noConfusion hc

theorem run_append (xs ys : List Op) (acc : Account) :
    run (xs ++ ys) acc = ((run ys (run xs acc).1).1, (run xs acc).2 ++ (run ys (run xs acc).1).2) := by
  induction xs generalizing acc with
  | nil => simp [run]
  | cons x xs ih => simp [run, ih]

theorem sum_filter_pos_nonneg (amounts : List Int) :
    0 ≤ (amounts.filter (fun a => a > 0)).sum := by
  induction amounts with
  | nil => simp
  | cons a rest ih =>
    by_cases ha : a > 0
    · have hf : (List.filter (fun a => decide (a > 0)) (a :: rest))
          = a :: List.filter (fun a => decide (a > 0)) rest := by
        simp only [List.filter_cons, decide_eq_true ha, if_true]
      rw [hf, List.sum_cons]
      omega
    · have hf : (List.filter (fun a => decide (a > 0)) (a :: rest))
          = List.filter (fun a => decide (a > 0)) rest := by
        simp only [List.filter_cons, decide_eq_false ha, Bool.false_eq_true, if_false]
      rw [hf]
      exact ih

theorem run_deposits (self : Obj) (amounts : List Int) (b : Int) (hb : isSafeInteger b)
    (hs : ∀ a ∈ amounts, isSafeInteger a)
    (hsum : isSafeInteger (b + (amounts.filter (fun a => a > 0)).sum)) :
    (run (amounts.map (fun a => Op.deposit (Number.ofInt a))) ⟨self, Number.ofInt b⟩).1
      = ⟨self, Number.ofInt (b + (amounts.filter (fun a => a > 0)).sum)⟩ := by
  induction amounts generalizing b with
  | nil => simp [run]
  | cons a rest ih =>
    have hrest := sum_filter_pos_nonneg rest
    have hsa : isSafeInteger a := hs a (List.mem_cons_self a rest)
    have hsr : ∀ x ∈ rest, isSafeInteger x := fun x hx => hs x (List.mem_cons_of_mem a hx)
    by_cases ha : a > 0
    · have hf : (List.filter (fun a => decide (a > 0)) (a :: rest))
          = a :: List.filter (fun a => decide (a > 0)) rest := by
        simp only [List.filter_cons, decide_eq_true ha, if_true]
      rw [hf, List.sum_cons] at hsum
      have hba : isSafeInteger (b + a) :=
        isSafeInteger_of_between b (b + a) _ hb hsum (by omega) (by omega)
      have hsum2 : isSafeInteger (b + a + (rest.filter (fun a => a > 0)).sum) := by
        rw [add_assoc]
        exact hsum
      simp only [List.map_cons, run, Op.exec, deposit_ofInt self b a hb hsa hba ha,
        ih (b + a) hba hsr hsum2, hf, List.sum_cons, add_assoc]
    · have hf : (List.filter (fun a => decide (a > 0)) (a :: rest))
          = List.filter (fun a => decide (a > 0)) rest := by
        simp only [List.filter_cons, decide_eq_false ha, Bool.false_eq_true, if_false]
      rw [hf] at hsum
      simp only [List.map_cons, run, Op.exec, deposit_ofInt_ignored self b a hsa ha,
        ih b hb hsr hsum, hf]

/-- Counterexample to C11 as stated: from balance `2^53 = 9007199254740992`,
`deposit(1)` twice is accepted twice (two `Deposited ₹1.` lines) but leaves
the balance at 9007199254740992, not 9007199254740994. -/
theorem deposits_not_summed :
    (run [Op.deposit 1, Op.deposit 1] (createAccount 9007199254740992)).2
      = ["Deposited ₹1.", "Deposited ₹1."]
    ∧ ¬ ((run [Op.deposit 1, Op.deposit 1] (createAccount 9007199254740992)).1.balance.toInt?
          = some (9007199254740992 + (([1, 1] : List Int).filter (fun a => a > 0)).sum))
    ∧ (run [Op.deposit 1, Op.deposit 1] (createAccount 9007199254740992)).1.balance.toInt?
        = some 9007199254740992 := by
  decide

/-- C11, amended: for every safe-integer initial balance `b` and every
finite list of safe-integer amounts such that `b` plus the sum of the
strictly positive amounts is a safe integer, calling `deposit` on each amount
in order leaves the balance exactly `b` plus the sum of the strictly positive
amounts.  From balance 0, `deposit(1000)`, `deposit(500)`, `getBalance()`
reports 1500, and `deposit(1000)`, `deposit(-5)` leaves 1000. -/
theorem deposits_sum (b : Int) (amounts : List Int) (hb : isSafeInteger b)
    (hs : ∀ a ∈ amounts, isSafeInteger a)
    (hsum : isSafeInteger (b + (amounts.filter (fun a => a > 0)).sum)) :
    (run (amounts.map (fun a => Op.deposit (Number.ofInt a)))
        (createAccount (Number.ofInt b))).1.balance.toInt?
      = some (b + (amounts.filter (fun a => a > 0)).sum)
    ∧ (run [Op.deposit 1000, Op.deposit 500, Op.getBalance] (createAccount 0)).2
      = ["Deposited ₹1000.", "Deposited ₹500.", "Current Balance: ₹1500"]
    ∧ (run [Op.deposit 1000, Op.deposit (-5)] (createAccount 0)).1.balance.toInt? = some 1000
    ∧ (run [Op.deposit 1000, Op.deposit (-5)] (createAccount 0)).2 = ["Deposited ₹1000."] := by
  refine ⟨?_, by decide, by decide, by decide⟩
  have hrun := run_deposits (createAccount (Number.ofInt b)).self amounts b hb hs hsum
  have hacc : createAccount (Number.ofInt b)
      = ⟨(createAccount (Number.ofInt b)).self, Number.ofInt b⟩ := rfl
  rw [hacc, hrun]
  exact Number.toInt?_ofInt _ hsum

/-- Witness of C11, amended: from balance 10, the amounts 1000, -5, 0, 500
leave 1510. -/
theorem deposits_sum_witness :
    (isSafeInteger 10 ∧ (∀ a ∈ ([1000, -5, 0, 500] : List Int), isSafeInteger a)
      ∧ isSafeInteger (10 + (([1000, -5, 0, 500] : List Int).filter (fun a => a > 0)).sum))
    ∧ (run (([1000, -5, 0, 500] : List Int).map (fun a => Op.deposit (Number.ofInt a)))
        (createAccount (Number.ofInt 10))).1.balance.toInt?
      = some (10 + (([1000, -5, 0, 500] : List Int).filter (fun a => a > 0)).sum) :=
  ⟨by decide, (deposits_sum 10 [1000, -5, 0, 500] (by decide) (by decide) (by decide)).1⟩

/-- Counterexample to C12 as stated: with `b = 2^53 = 9007199254740992`,
`d = 1`, `w = 1` (so `d > 0` and `0 < w <= b + d`) the four calls log
`Current Balance: ₹9007199254740992` and then `₹9007199254740991`, not
`₹9007199254740993` and `₹9007199254740992`. -/
theorem usage_example_not_exact :
    ((1 : Int) > 0 ∧ (0 : Int) < 1 ∧ (1 : Int) ≤ 9007199254740992 + 1)
    ∧ (run [Op.deposit 1, Op.getBalance, Op.withdraw 1, Op.getBalance]
        (createAccount 9007199254740992)).2
      = ["Deposited ₹1.", "Current Balance: ₹9007199254740992", "Withdrew ₹1.",
          "Current Balance: ₹9007199254740991"]
    ∧ ¬ ((run [Op.deposit 1, Op.getBalance, Op.withdraw 1, Op.getBalance]
        (createAccount 9007199254740992)).2
      = ["Deposited ₹1.", "Current Balance: ₹9007199254740993", "Withdrew ₹1.",
          "Current Balance: ₹9007199254740992"]) := by
  decide

/-- C12, amended: for safe integers `b`, `d`, `w` with `b + d` a safe
integer, `d > 0` and `0 < w <= b + d`, on `createAccount(b)` the calls
`deposit(d)`, `getBalance()`, `withdraw(w)`, `getBalance()` log exactly
`Deposited ₹d.`, `Current Balance: ₹(b+d)`, `Withdrew ₹w.`,
`Current Balance: ₹(b+d-w)` in that order (numbers in decimal digits), ending
with balance exactly `b + d - w`. -/
theorem usage_example (b d w : Int) (hb : isSafeInteger b) (hds : isSafeInteger d)
    (hws : isSafeInteger w) (hbd : isSafeInteger (b + d)) (hd : d > 0) (hw : 0 < w)
    (hwb : w ≤ b + d) :
    (run [Op.deposit (Number.ofInt d), Op.getBalance] (createAccount (Number.ofInt b))).2
      = ["Deposited ₹" ++ toString d ++ ".", "Current Balance: ₹" ++ toString (b + d)]
    ∧ (run [Op.deposit (Number.ofInt d), Op.getBalance, Op.withdraw (Number.ofInt w),
        Op.getBalance] (createAccount (Number.ofInt b))).2
      = ["Deposited ₹" ++ toString d ++ ".", "Current Balance: ₹" ++ toString (b + d),
          "Withdrew ₹" ++ toString w ++ ".",
          "Current Balance: ₹" ++ toString (b + d - w)]
    ∧ (run [Op.deposit (Number.ofInt d), Op.getBalance, Op.withdraw (Number.ofInt w),
        Op.getBalance] (createAccount (Number.ofInt b))).1.balance.toInt? = some (b + d - w) := by
  have hsub : isSafeInteger (b + d - w) :=
    isSafeInteger_of_between 0 (b + d - w) (b + d) isSafeInteger_zero hbd (by omega) (by omega)
  have hacc : createAccount (Number.ofInt b)
      = ⟨(createAccount (Number.ofInt b)).self, Number.ofInt b⟩ := rfl
  have hdep := deposit_ofInt (createAccount (Number.ofInt b)).self b d hb hds hbd hd
  have hget1 := getBalance_ofInt (createAccount (Number.ofInt b)).self (b + d) hbd
  have hwd := withdraw_ofInt (createAccount (Number.ofInt b)).self (b + d) w hbd hws hw hwb
  have hget2 := getBalance_ofInt (createAccount (Number.ofInt b)).self (b + d - w) hsub
  rw [hacc]
  refine ⟨?_, ?_, ?_⟩
  · simp only [run, Op.exec, hdep, hget1, List.singleton_append, List.append_nil]
  · simp only [run, Op.exec, hdep, hget1, hwd, hget2, List.singleton_append, List.append_nil]
  · simp only [run, Op.exec, hdep, hget1, hwd, hget2]
    exact Number.toInt?_ofInt _ hsub

/-- Witness of C12, amended: `b = 1000`, `d = 500`, `w = 200` logs
`Deposited ₹500.`, `Current Balance: ₹1500`, `Withdrew ₹200.`,
`Current Balance: ₹1300`. -/
theorem usage_example_witness :
    (isSafeInteger 1000 ∧ isSafeInteger 500 ∧ isSafeInteger 200 ∧ isSafeInteger (1000 + 500)
      ∧ (500 : Int) > 0 ∧ (0 : Int) < 200 ∧ (200 : Int) ≤ 1000 + 500)
    ∧ (run [Op.deposit 500, Op.getBalance, Op.withdraw 200, Op.getBalance] (createAccount 1000)).2
      = ["Deposited ₹500.", "Current Balance: ₹1500", "Withdrew ₹200.",
          "Current Balance: ₹1300"]
    ∧ (run [Op.deposit 500, Op.getBalance, Op.withdraw 200, Op.getBalance]
        (createAccount 1000)).1.balance.toInt? = some 1300 :=
  ⟨by decide,
    (usage_example 1000 500 200 (by decide) (by decide) (by decide) (by decide) (by decide)
      (by decide) (by decide)).2.1,
    (usage_example 1000 500 200 (by decide) (by decide) (by decide) (by decide) (by decide)
      (by decide) (by decide)).2.2⟩

/-- Counterexample to C13 as stated: on a fresh account of balance 0,
`deposit(1000)` then `withdraw(200)` then `getBalance()` does not report 1300,
and the balance is not 1300. -/
theorem fresh_account_not_1300 :
    ¬ ((getBalance (run [Op.deposit 1000, Op.withdraw 200] (createAccount 0)).1).out
          = ["Current Balance: ₹1300"]
        ∨ (run [Op.deposit 1000, Op.withdraw 200, Op.getBalance] (createAccount 0)).1.balance
          = 1300) := by
  decide

/-- C13, amended: on a fresh account of balance 0, `deposit(1000)` then
`withdraw(200)` then `getBalance()` yields 800. -/
theorem fresh_account_yields_800 :
    (getBalance (run [Op.deposit 1000, Op.withdraw 200] (createAccount 0)).1).out
      = ["Current Balance: ₹800"]
    ∧ (run [Op.deposit 1000, Op.withdraw 200, Op.getBalance] (createAccount 0)).2
      = ["Deposited ₹1000.", "Withdrew ₹200.", "Current Balance: ₹800"]
    ∧ (run [Op.deposit 1000, Op.withdraw 200, Op.getBalance] (createAccount 0)).1.balance
      = 800 := by
  decide

/-- C14: any two rejected withdrawals, whatever the balances and amounts and
whether the amount was non-positive or larger than the balance, emit the same
output (the one failure message) and return the same value. -/
theorem rejections_indistinguishable (acc1 acc2 : Account) (a1 a2 : Number)
    (h1 : ¬ (a1 > 0 ∧ a1 ≤ acc1.balance)) (h2 : ¬ (a2 > 0 ∧ a2 ≤ acc2.balance)) :
    (withdraw a1 acc1).out = (withdraw a2 acc2).out
    ∧ (withdraw a1 acc1).ret = (withdraw a2 acc2).ret
    ∧ (withdraw a1 acc1).out = [failureMessage] := by
  rw [withdraw_of_not_guard a1 acc1 h1, withdraw_of_not_guard a2 acc2 h2]
  exact ⟨rfl, rfl, rfl⟩

/-- Witness of C14: `withdraw(-5)` on balance 1000 (invalid amount) and
`withdraw(2000)` on balance 300 (insufficient funds). -/
theorem rejections_indistinguishable_witness :
    (¬ ((-5 : Number) > 0 ∧ (-5 : Number) ≤ (createAccount 1000).balance)
      ∧ ¬ ((2000 : Number) > 0 ∧ (2000 : Number) ≤ (createAccount 300).balance))
    ∧ (withdraw (-5) (createAccount 1000)).out = (withdraw 2000 (createAccount 300)).out
    ∧ (withdraw (-5) (createAccount 1000)).ret = (withdraw 2000 (createAccount 300)).ret :=
  ⟨by decide,
    (rejections_indistinguishable (createAccount 1000) (createAccount 300) (-5) 2000
      (by decide) (by decide)).1,
    (rejections_indistinguishable (createAccount 1000) (createAccount 300) (-5) 2000
      (by decide) (by decide)).2.1⟩

/-- Counterexample to C15 as stated: from `createAccount(0)`, `deposit(1e308)`
twice reaches the balance `Infinity`, which is `>= 0`; there
`withdraw(Infinity)` passes the guard and leaves `NaN`, which is not
`>= 0`. -/
theorem withdraw_infinity_breaks_invariant :
    (run [Op.deposit (Number.ofInt ((10 ^ 308 : Nat) : Int)),
        Op.deposit (Number.ofInt ((10 ^ 308 : Nat) : Int))] (createAccount 0)).1.balance
      = Number.inf false
    ∧ (0 : Number) ≤ Number.inf false
    ∧ (withdraw (Number.inf false) (createAccount (Number.inf false))).out
      = ["Withdrew ₹Infinity."]
    ∧ (withdraw (Number.inf false) (createAccount (Number.inf false))).state.balance
      = Number.nan
    ∧ ¬ ((0 : Number)
        ≤ (withdraw (Number.inf false) (createAccount (Number.inf false))).state.balance) := by
  decide

/-- C15, amended: non-negativity of the balance is an inductive invariant
for all calls but a `withdraw` of `Infinity`: `deposit(a)` for every amount
`a`, `getBalance()`, and `withdraw(a)` for every amount `a` other than
`Infinity` map an account with balance `>= 0` to an account with balance
`>= 0`; hence, when `initialBalance >= 0`, every state reached from
`createAccount(initialBalance)` by calls none of which is a `withdraw` of
`Infinity` has balance `>= 0`. -/
theorem nonneg_inductive_invariant (initialBalance : Number)
    (h : (0 : Number) ≤ initialBalance) (ops : List Op)
    (hw : ∀ op ∈ ops, op ≠ Op.withdraw (Number.inf false)) :
    (∀ (acc : Account) (a : Number), (0 : Number) ≤ acc.balance →
        (0 : Number) ≤ (deposit a acc).state.balance
        ∧ (a ≠ Number.inf false → (0 : Number) ≤ (withdraw a acc).state.balance)
        ∧ (0 : Number) ≤ (getBalance acc).state.balance)
    ∧ (0 : Number) ≤ (createAccount initialBalance).balance
    ∧ (0 : Number) ≤ (run ops (createAccount initialBalance)).1.balance :=
  ⟨fun acc a hacc =>
      ⟨exec_balance_nonneg (Op.deposit a) acc hacc (fun hc => Op.noConfusion hc),
        fun ha => exec_balance_nonneg (Op.withdraw a) acc hacc
          (fun hc => ha (Op.withdraw.inj hc)),
        exec_balance_nonneg Op.getBalance acc hacc (fun hc => Op.noConfusion hc)⟩,
    h, run_balance_nonneg ops (createAccount initialBalance) h hw⟩

/-- Witness of C15, amended: from balance 1000, a deposit, an over-large
withdrawal, a non-positive deposit, a deposit of `Infinity` and an accepted
withdrawal. -/
theorem nonneg_inductive_invariant_witness :
    ((0 : Number) ≤ 1000
      ∧ ∀ op ∈ [Op.deposit 500, Op.withdraw 2000, Op.deposit (-5),
          Op.deposit (Number.inf false), Op.withdraw 1500],
        op ≠ Op.withdraw (Number.inf false))
    ∧ (0 : Number) ≤ (run [Op.deposit 500, Op.withdraw 2000, Op.deposit (-5),
        Op.deposit (Number.inf false), Op.withdraw 1500] (createAccount 1000)).1.balance :=
  ⟨by decide,
    (nonneg_inductive_invariant 1000 (by decide)
      [Op.deposit 500, Op.withdraw 2000, Op.deposit (-5), Op.deposit (Number.inf false),
        Op.withdraw 1500] (by decide)).2.2⟩

/-- Counterexample to C17 as stated: on balance 1, `deposit(2^53)` then
`withdraw(2^53)` (with `2^53 = 9007199254740992`) are both accepted, yet the
balance ends at 0, not 1. -/
theorem round_trip_loses_balance :
    ((0 : Number) ≤ (createAccount 1).balance ∧ (9007199254740992 : Number) > 0)
    ∧ (run [Op.deposit 9007199254740992, Op.withdraw 9007199254740992] (createAccount 1)).2
      = ["Deposited ₹9007199254740992.", "Withdrew ₹9007199254740992."]
    ∧ ¬ ((withdraw 9007199254740992
          (deposit 9007199254740992 (createAccount 1)).state).state.balance
        = (createAccount 1).balance)
    ∧ (withdraw 9007199254740992
          (deposit 9007199254740992 (createAccount 1)).state).state.balance.toInt?
        = some 0 := by
  decide

/-- C17, amended: for safe integers `b >= 0` and `a > 0` with `b + a` a safe
integer, `deposit(a)` then `withdraw(a)` is accepted (the failure message is
not logged; the log is `Deposited ₹a.`, `Withdrew ₹a.`) and restores the
account, so the balance is exactly `b` again. -/
theorem deposit_withdraw_round_trip (self : Obj) (b a : Int) (hbs : isSafeInteger b)
    (has : isSafeInteger a) (hba : isSafeInteger (b + a)) (hb : 0 ≤ b) (ha : a > 0) :
    (withdraw (Number.ofInt a) (deposit (Number.ofInt a) ⟨self, Number.ofInt b⟩).state).state
      = ⟨self, Number.ofInt b⟩
    ∧ (withdraw (Number.ofInt a)
        (deposit (Number.ofInt a) ⟨self, Number.ofInt b⟩).state).state.balance.toInt? = some b
    ∧ failureMessage ∉ (withdraw (Number.ofInt a)
        (deposit (Number.ofInt a) ⟨self, Number.ofInt b⟩).state).out
    ∧ run [Op.deposit (Number.ofInt a), Op.withdraw (Number.ofInt a)] ⟨self, Number.ofInt b⟩
        = (⟨self, Number.ofInt b⟩,
            ["Deposited ₹" ++ toString a ++ ".", "Withdrew ₹" ++ toString a ++ "."]) := by
  have hdep := deposit_ofInt self b a hbs has hba ha
  have hwd := withdraw_ofInt self (b + a) a hba has ha (by omega)
  have hsub : b + a - a = b := by omega
  refine ⟨?_, ?_, ?_, ?_⟩
  · rw [hdep]
    simp only [hwd, hsub]
  · rw [hdep]
    simp only [hwd, hsub]
    exact Number.toInt?_ofInt b hbs
  · rw [hdep]
    simp only [hwd]
    intro hmem
    exact withdrew_ne_failureMessage (toString a) (List.mem_singleton.mp hmem).symm
  · simp only [run, Op.exec, hdep, hwd, hsub, List.singleton_append, List.append_nil]

/-- Witness of C17, amended: on balance 0, `deposit(7)` then `withdraw(7)`
is accepted and restores balance 0. -/
theorem deposit_withdraw_round_trip_witness :
    (isSafeInteger 0 ∧ isSafeInteger 7 ∧ isSafeInteger (0 + 7) ∧ (0 : Int) ≤ 0 ∧ (7 : Int) > 0)
    ∧ (withdraw 7 (deposit 7 (createAccount 0)).state).state = createAccount 0
    ∧ failureMessage ∉ (withdraw 7 (deposit 7 (createAccount 0)).state).out
    ∧ run [Op.deposit 7, Op.withdraw 7] (createAccount 0)
        = (createAccount 0, ["Deposited ₹7.", "Withdrew ₹7."]) :=
  ⟨by decide,
    (deposit_withdraw_round_trip (createAccount 0).self 0 7 (by decide) (by decide) (by decide)
      (by decide) (by decide)).1,
    (deposit_withdraw_round_trip (createAccount 0).self 0 7 (by decide) (by decide) (by decide)
      (by decide) (by decide)).2.2.1,
    (deposit_withdraw_round_trip (createAccount 0).self 0 7 (by decide) (by decide) (by decide)
      (by decide) (by decide)).2.2.2⟩

/-- Counterexample to C18 as stated: at balance `Infinity`, which is `> 0`,
`withdraw(Infinity)` is accepted (it logs `Withdrew ₹Infinity.`) and leaves
the balance `NaN`, not 0. -/
theorem withdraw_whole_infinity :
    (createAccount (Number.inf false)).balance > 0
    ∧ (withdraw (createAccount (Number.inf false)).balance
        (createAccount (Number.inf false))).out = ["Withdrew ₹Infinity."]
    ∧ (withdraw (createAccount (Number.inf false)).balance
        (createAccount (Number.inf false))).state.balance = Number.nan
    ∧ ¬ ((withdraw (createAccount (Number.inf false)).balance
        (createAccount (Number.inf false))).state.balance = 0) := by
  decide

/-- C18, amended: for every finite balance `b > 0`, `withdraw(b)` (the whole
balance) is accepted, logs `Withdrew ₹` + String(b) + `.` and leaves the
balance exactly 0; and from balance 0 every `withdraw(a)`, for every amount
`a`, is rejected with the failure message and leaves the account (balance 0)
unchanged. -/
theorem withdraw_boundary (acc : Account) (hfin : acc.balance.isFinite = true)
    (hb : acc.balance > 0) :
    (withdraw acc.balance acc).state.balance = 0
    ∧ (withdraw acc.balance acc).out
        = ["Withdrew ₹" ++ numberToString acc.balance ++ "."]
    ∧ failureMessage ∉ (withdraw acc.balance acc).out
    ∧ ∀ (acc0 : Account) (a : Number), acc0.balance = 0 →
        (withdraw a acc0).out = [failureMessage]
        ∧ (withdraw a acc0).state = acc0
        ∧ (withdraw a acc0).state.balance = 0 := by
  have hk : ∃ k : Int, acc.balance = Number.fin k := by
    cases hbal : acc.balance with
    | nan =>
      rw [hbal] at hfin
      exact Bool.noConfusion hfin
    | inf n =>
      rw [hbal] at hfin
      exact Bool.noConfusion hfin
    | fin k => exact ⟨k, rfl⟩
  obtain ⟨k, hbal⟩ := hk
  have hle : acc.balance ≤ acc.balance := by
    rw [hbal]
    exact Number.le_refl_fin k
  have hguard : acc.balance > 0 ∧ acc.balance ≤ acc.balance := ⟨hb, hle⟩
  refine ⟨?_, ?_, withdraw_guard_no_failure acc.balance acc hguard, ?_⟩
  · rw [withdraw_of_guard acc.balance acc hguard]
    show acc.balance - acc.balance = 0
    rw [hbal]
    exact Number.fin_sub_self k
  · rw [withdraw_of_guard acc.balance acc hguard]
  · intro acc0 a h0
    have hn : ¬ (a > 0 ∧ a ≤ acc0.balance) := by
      rw [h0]
      exact Number.not_pos_and_le_zero a
    rw [withdraw_of_not_guard a acc0 hn]
    exact ⟨rfl, rfl, h0⟩

/-- Witness of C18, amended: `withdraw(1000)` on balance 1000 leaves 0, and
then `withdraw(1)` on balance 0 is rejected. -/
theorem withdraw_boundary_witness :
    ((createAccount 1000).balance.isFinite = true ∧ (createAccount 1000).balance > 0)
    ∧ (withdraw (createAccount 1000).balance (createAccount 1000)).state.balance = 0
    ∧ (withdraw (createAccount 1000).balance (createAccount 1000)).out = ["Withdrew ₹1000."]
    ∧ (withdraw 1 (createAccount 0)).out = [failureMessage] :=
  ⟨by decide,
    (withdraw_boundary (createAccount 1000) (by decide) (by decide)).1,
    (withdraw_boundary (createAccount 1000) (by decide) (by decide)).2.1,
    ((withdraw_boundary (createAccount 1000) (by decide) (by decide)).2.2.2 (createAccount 0) 1 rfl).1⟩

/-! ## The record factory -/

theorem CarOp.exec_state (op : CarOp) (car : CarInstance) : (op.exec car).state = car := by
  cases op <;> rfl

theorem runCar_state (ops : List CarOp) (car : CarInstance) : (runCar ops car).1 = car := by
  induction ops with
  | nil => rfl
  | cons op ops ih => simpa only [runCar, CarOp.exec_state] using ih

theorem runCar_out (ops : List CarOp) (car : CarInstance) :
    (runCar ops car).2 = (ops.map (fun o => (o.exec car).out)).flatten := by
  induction ops with
  | nil => rfl
  | cons op ops ih =>
    simp only [runCar, CarOp.exec_state, List.map_cons, List.flatten_cons, ih]

/-- C10: on a `Car()` instance `carModel()` logs exactly the fields `model`
and `manufacturedAt` (`Model 1`, `24/2025`) and `carDetails()` exactly the
fields `name` and `color` (`Toyota`, `Black`); neither output depends on the
fields of the other and the two outputs have no line in common; after any
sequence of calls of the two operations a call logs what it would log if
called first, the log of the sequence is the concatenation of those outputs,
and no call changes the instance (none of its four fields). -/
theorem car_views (ops : List CarOp) (op : CarOp) (car : CarInstance) (m n c t : String) :
    (carModel Car).out = ["Model 1", "24/2025"]
    ∧ (carDetails Car).out = ["Toyota", "Black"]
    ∧ (carModel car).out = [car.model, car.manufacturedAt]
    ∧ (carDetails car).out = [car.name, car.color]
    ∧ (carModel ⟨car.self, car.model, n, c, car.manufacturedAt⟩).out = (carModel car).out
    ∧ (carDetails ⟨car.self, m, car.name, car.color, t⟩).out = (carDetails car).out
    ∧ List.Disjoint (carModel Car).out (carDetails Car).out
    ∧ (op.exec (runCar ops Car).1).out = (op.exec Car).out
    ∧ (runCar ops Car).2 = (ops.map (fun o => (o.exec Car).out)).flatten
    ∧ (runCar ops Car).1 = Car
    ∧ (op.exec car).state = car := by
  have hdis : ∀ x ∈ (carModel Car).out, x ∉ (carDetails Car).out := by decide
  refine ⟨rfl, rfl, rfl, rfl, rfl, rfl, fun x h1 h2 => hdis x h1 h2, ?_, runCar_out ops Car,
    runCar_state ops Car, CarOp.exec_state op car⟩
  rw [runCar_state ops Car]

/-! ## The logging counter -/

theorem Inner_cell (σ : Store) (v : Int) (τ : Store) :
    Inner σ.length (σ ++ v :: τ)
      = ⟨Value.undefined, σ ++ (v + 1) :: τ, ["Inner: " ++ numToString (v + 1)]⟩ := by
  simp only [Inner, getD_append_cell, set_append_cell]

theorem innerTimes_cell (σ : Store) (τ : Store) (n : Nat) (v : Int) :
    innerTimes σ.length n (σ ++ v :: τ)
      = ((List.range n).map
            (fun (i : Nat) => (Value.undefined, ["Inner: " ++ numToString (v + 1 + (i : Int))])),
          σ ++ (v + (n : Int)) :: τ) := by
  induction n generalizing v with
  | zero => simp [innerTimes]
  | succ n ih =>
    simp only [innerTimes, Inner_cell, ih]
    refine Prod.ext ?_ ?_
    · simp only [List.range_succ_eq_map, List.map_cons, List.map_map]
      refine congrArg₂ _ (by simp) ?_
      apply List.map_congr_left
      intro i _
      simp only [Function.comp, Nat.cast_succ]
      rw [add_assoc (v + 1) 1 (i : Int), add_comm 1 (i : Int)]
    · simp only [Nat.cast_succ]
      rw [add_assoc v 1 (n : Int), add_comm 1 (n : Int)]

/-- C19: for every `k >= 1` (among `N >= k` successive calls), the `k`-th
call of the function returned by one `Outer()` invocation logs exactly the
line `Inner: k` and returns `undefined`; and the lines logged by `N` calls
are `Inner: v` for `v` the values returned by `N` calls of a `counter2()`
counter, call by call.  Three calls log `Inner: 1`, `Inner: 2`, `Inner: 3`. -/
theorem outer_logs_call_number (σ τ : Store) (N k : Nat) (h1 : 1 ≤ k) (hk : k ≤ N) :
    (innerTimes (Outer σ).1 N (Outer σ).2).1[k - 1]?
      = some (Value.undefined, ["Inner: " ++ numToString (k : Int)])
    ∧ (innerTimes (Outer σ).1 N (Outer σ).2).1
      = (callTimes (counter2 τ).1 N (counter2 τ).2).1.map
          (fun v => (Value.undefined, ["Inner: " ++ numToString v]))
    ∧ (innerTimes (Outer []).1 3 (Outer []).2).1
      = [(Value.undefined, ["Inner: 1"]), (Value.undefined, ["Inner: 2"]),
          (Value.undefined, ["Inner: 3"])] := by
  have hkN : k - 1 < N := by omega
  refine ⟨?_, ?_, by decide⟩
  · simp only [Outer, innerTimes_cell]
    rw [List.getElem?_map, List.getElem?_range hkN]
    simp only [Option.map_some']
    have hcast : (0 : Int) + 1 + ((k - 1 : Nat) : Int) = (k : Int) := by omega
    rw [hcast]
  · simp only [Outer, counter2, innerTimes_cell, callTimes_cell, List.map_map]
    rfl

/-- Witness of C19: the second of three calls logs `Inner: 2`. -/
theorem outer_logs_call_number_witness :
    (1 ≤ 2 ∧ 2 ≤ 3)
    ∧ (innerTimes (Outer []).1 3 (Outer []).2).1[2 - 1]?
      = some (Value.undefined, ["Inner: " ++ numToString ((2 : Nat) : Int)]) :=
  ⟨by decide, (outer_logs_call_number [] [] 3 2 (by decide) (by decide)).1⟩

/-! ## The console as a ledger -/

theorem digitChar_spec : ∀ k, k < 10 →
    (Nat.digitChar k).isDigit = true ∧ (Nat.digitChar k).toNat - 48 = k := by
  decide

theorem readDigits_toDigitsCore (fuel n : Nat) (ds : List Char) (h : n < fuel) :
    readDigits 0 (Nat.toDigitsCore 10 fuel n ds) = readDigits n ds := by
  induction fuel generalizing n ds with
  | zero => omega
  | succ fuel ih =>
    have hd := digitChar_spec (n % 10) (Nat.mod_lt n (by decide))
    unfold Nat.toDigitsCore
    by_cases h0 : n / 10 = 0
    · simp only [h0, if_true, readDigits, hd.1, hd.2, Nat.zero_mul, Nat.zero_add]
      have hmod : n % 10 = n := Nat.mod_eq_of_lt (by omega)
      rw [hmod]
    · have hlt : n / 10 < fuel := by omega
      simp only [h0, if_false]
      rw [ih (n / 10) _ hlt]
      simp only [readDigits, hd.1, hd.2, if_true]
      congr 1
      omega

theorem toDigitsCore_ne_nil (fuel n : Nat) (ds : List Char) :
    Nat.toDigitsCore 10 (fuel + 1) n ds ≠ [] := by
  induction fuel generalizing n ds with
  | zero =>
    unfold Nat.toDigitsCore
    by_cases h0 : n / 10 = 0
    · simp [h0]
    · simp [h0, Nat.toDigitsCore]
  | succ fuel ih =>
    unfold Nat.toDigitsCore
    by_cases h0 : n / 10 = 0
    · simp [h0]
    · simp only [h0, if_false]
      exact ih _ _

theorem readNat_toDigits (n : Nat) : readNat (Nat.toDigits 10 n) = some n := by
  have hne := toDigitsCore_ne_nil n n []
  have hrd := readDigits_toDigitsCore (n + 1) n [] (Nat.lt_succ_self n)
  unfold Nat.toDigits
  cases hl : Nat.toDigitsCore 10 (n + 1) n [] with
  | nil => exact absurd hl hne
  | cons c cs =>
    rw [hl] at hrd
    simpa only [readNat, readDigits] using hrd

theorem readNum_toString (a : Int) : readNum (toString a).data = some a := by
  cases a with
  | ofNat m =>
    have hdata : (toString (Int.ofNat m)).data = Nat.toDigits 10 m := rfl
    rw [hdata]
    simp only [readNum, readNat_toDigits]
    rfl
  | negSucc m =>
    have hdata : (toString (Int.negSucc m)).data = '-' :: Nat.toDigits 10 (m + 1) := by
      show ("-" ++ toString (m + 1)).data = _
      rw [String.data_append]
      rfl
    rw [hdata]
    have hnone : readNat ('-' :: Nat.toDigits 10 (m + 1)) = none := by
      simp only [readNat, readDigits]
      rfl
    simp only [readNum, hnone, if_true, readNat_toDigits, Option.map_some']
    rfl

theorem stripTag_append (tag rest : List Char) : stripTag tag (tag ++ rest) = some rest := by
  induction tag with
  | nil => cases rest <;> rfl
  | cons t ts ih => simpa only [List.cons_append, stripTag, if_true] using ih

theorem amountIn_tagged (tag : String) (a : Int) :
    amountIn tag (tag ++ toString a ++ ".") = some a := by
  have hdata : (tag ++ toString a ++ ".").data
      = tag.data ++ ((toString a).data ++ ['.']) := by
    rw [String.data_append, String.data_append, List.append_assoc]
  simp only [amountIn, hdata, stripTag_append, List.getLast?_concat, List.dropLast_concat,
    if_true, readNum_toString]

theorem stripTag_head_ne (t c : Char) (ts cs : List Char) (h : t ≠ c) :
    stripTag (t :: ts) (c :: cs) = none := by
  simp only [stripTag, if_neg h]

theorem amountIn_other_tag (tag other : String) (t c : Char) (ts cs : List Char)
    (rest : String) (htag : tag.data = t :: ts) (hother : other.data = c :: cs) (h : t ≠ c) :
    amountIn tag (other ++ rest) = none := by
  have hdata : (other ++ rest).data = c :: (cs ++ rest.data) := by
    rw [String.data_append, hother, List.cons_append]
  simp only [amountIn, hdata, htag, stripTag_head_ne t c ts _ h]

theorem amountIn_deposited_line (a : Int) :
    amountIn "Deposited ₹" ("Deposited ₹" ++ toString a ++ ".") = some a
    ∧ amountIn "Withdrew ₹" ("Deposited ₹" ++ toString a ++ ".") = none := by
  refine ⟨amountIn_tagged "Deposited ₹" a, ?_⟩
  rw [String.append_assoc]
  exact amountIn_other_tag "Withdrew ₹" "Deposited ₹" 'W' 'D' _ _ _ rfl rfl (by decide)

theorem amountIn_withdrew_line (a : Int) :
    amountIn "Withdrew ₹" ("Withdrew ₹" ++ toString a ++ ".") = some a
    ∧ amountIn "Deposited ₹" ("Withdrew ₹" ++ toString a ++ ".") = none := by
  refine ⟨amountIn_tagged "Withdrew ₹" a, ?_⟩
  rw [String.append_assoc]
  exact amountIn_other_tag "Deposited ₹" "Withdrew ₹" 'D' 'W' _ _ _ rfl rfl (by decide)

theorem amountIn_balance_line (t : String) :
    amountIn "Deposited ₹" ("Current Balance: ₹" ++ t) = none
    ∧ amountIn "Withdrew ₹" ("Current Balance: ₹" ++ t) = none :=
  ⟨amountIn_other_tag "Deposited ₹" "Current Balance: ₹" 'D' 'C' _ _ _ rfl rfl (by decide),
    amountIn_other_tag "Withdrew ₹" "Current Balance: ₹" 'W' 'C' _ _ _ rfl rfl (by decide)⟩

theorem amountIn_failureMessage :
    amountIn "Deposited ₹" failureMessage = none
    ∧ amountIn "Withdrew ₹" failureMessage = none := by
  decide

theorem depositedTotal_append (xs ys : List String) :
    depositedTotal (xs ++ ys) = depositedTotal xs + depositedTotal ys := by
  simp only [depositedTotal, List.filterMap_append, List.sum_append]

theorem withdrewTotal_append (xs ys : List String) :
    withdrewTotal (xs ++ ys) = withdrewTotal xs + withdrewTotal ys := by
  simp only [withdrewTotal, List.filterMap_append, List.sum_append]

theorem totals_deposited_line (a : Int) :
    depositedTotal ["Deposited ₹" ++ toString a ++ "."] = a
    ∧ withdrewTotal ["Deposited ₹" ++ toString a ++ "."] = 0 := by
  simp only [depositedTotal, withdrewTotal, List.filterMap_cons, List.filterMap_nil,
    (amountIn_deposited_line a).1, (amountIn_deposited_line a).2, List.sum_cons, List.sum_nil,
    add_zero, and_self]

theorem totals_withdrew_line (a : Int) :
    depositedTotal ["Withdrew ₹" ++ toString a ++ "."] = 0
    ∧ withdrewTotal ["Withdrew ₹" ++ toString a ++ "."] = a := by
  simp only [depositedTotal, withdrewTotal, List.filterMap_cons, List.filterMap_nil,
    (amountIn_withdrew_line a).1, (amountIn_withdrew_line a).2, List.sum_cons, List.sum_nil,
    add_zero, and_self]

theorem totals_balance_line (t : String) :
    depositedTotal ["Current Balance: ₹" ++ t] = 0
    ∧ withdrewTotal ["Current Balance: ₹" ++ t] = 0 := by
  simp only [depositedTotal, withdrewTotal, List.filterMap_cons, List.filterMap_nil,
    (amountIn_balance_line t).1, (amountIn_balance_line t).2, List.sum_nil, and_self]

theorem totals_failureMessage :
    depositedTotal [failureMessage] = 0 ∧ withdrewTotal [failureMessage] = 0 := by
  decide

theorem totals_nil : depositedTotal [] = 0 ∧ withdrewTotal [] = 0 := by
  decide

theorem deposited_sum_nonneg (calls : List IntOp) : 0 ≤ (calls.map IntOp.deposited).sum := by
  induction calls with
  | nil => simp
  | cons c rest ih =>
    rw [List.map_cons, List.sum_cons]
    cases c with
    | deposit a =>
      by_cases ha : a > 0
      · simp only [IntOp.deposited, if_pos ha]
        omega
      · simp only [IntOp.deposited, if_neg ha]
        omega
    | withdraw a =>
      simp only [IntOp.deposited]
      omega
    | getBalance =>
      simp only [IntOp.deposited]
      omega

theorem run_ledger (self : Obj) (calls : List IntOp) (n : Int) (hn : isSafeInteger n)
    (hs : ∀ c ∈ calls, isSafeInteger c.amount)
    (hsum : n + (calls.map IntOp.deposited).sum ≤ maxSafeInteger) :
    (run (calls.map IntOp.toOp) ⟨self, Number.ofInt n⟩).1
        = ⟨self, Number.ofInt
            (n + depositedTotal (run (calls.map IntOp.toOp) ⟨self, Number.ofInt n⟩).2
              - withdrewTotal (run (calls.map IntOp.toOp) ⟨self, Number.ofInt n⟩).2)⟩
    ∧ isSafeInteger
        (n + depositedTotal (run (calls.map IntOp.toOp) ⟨self, Number.ofInt n⟩).2
          - withdrewTotal (run (calls.map IntOp.toOp) ⟨self, Number.ofInt n⟩).2) := by
  induction calls generalizing n with
  | nil =>
    simp only [List.map_nil, run, totals_nil.1, totals_nil.2, add_zero, sub_zero, true_and]
    exact hn
  | cons c rest ih =>
    have hD := deposited_sum_nonneg rest
    have hsr : ∀ x ∈ rest, isSafeInteger x.amount := fun x hx => hs x (List.mem_cons_of_mem c hx)
    have hsc : isSafeInteger c.amount := hs c (List.mem_cons_self c rest)
    rw [List.map_cons, List.sum_cons] at hsum
    have hn1 := hn.1
    have hn2 := hn.2
    cases c with
    | deposit a =>
      by_cases ha : a > 0
      · simp only [IntOp.deposited, if_pos ha] at hsum
        have hna : isSafeInteger (n + a) := ⟨by omega, by omega⟩
        have hex := deposit_ofInt self n a hn hsc hna ha
        have hih := ih (n + a) hna hsr (by omega)
        simp only [List.map_cons, IntOp.toOp, run, Op.exec, hex, depositedTotal_append,
          withdrewTotal_append, (totals_deposited_line a).1, (totals_deposited_line a).2]
        have he : n + (a + depositedTotal (run (List.map IntOp.toOp rest)
              ⟨self, Number.ofInt (n + a)⟩).2)
            - (0 + withdrewTotal (run (List.map IntOp.toOp rest)
              ⟨self, Number.ofInt (n + a)⟩).2)
            = n + a + depositedTotal (run (List.map IntOp.toOp rest)
              ⟨self, Number.ofInt (n + a)⟩).2
            - withdrewTotal (run (List.map IntOp.toOp rest)
              ⟨self, Number.ofInt (n + a)⟩).2 := by omega
        rw [he]
        exact hih
      · simp only [IntOp.deposited, if_neg ha] at hsum
        have hex := deposit_ofInt_ignored self n a hsc ha
        have hih := ih n hn hsr (by omega)
        simp only [List.map_cons, IntOp.toOp, run, Op.exec, hex, List.nil_append]
        exact hih
    | withdraw a =>
      simp only [IntOp.deposited] at hsum
      by_cases ha : a > 0 ∧ a ≤ n
      · have hna : isSafeInteger (n - a) := ⟨by omega, by omega⟩
        have hex := withdraw_ofInt self n a hn hsc ha.1 ha.2
        have hih := ih (n - a) hna hsr (by omega)
        simp only [List.map_cons, IntOp.toOp, run, Op.exec, hex, depositedTotal_append,
          withdrewTotal_append, (totals_withdrew_line a).1, (totals_withdrew_line a).2]
        have he : n + (0 + depositedTotal (run (List.map IntOp.toOp rest)
              ⟨self, Number.ofInt (n - a)⟩).2)
            - (a + withdrewTotal (run (List.map IntOp.toOp rest)
              ⟨self, Number.ofInt (n - a)⟩).2)
            = n - a + depositedTotal (run (List.map IntOp.toOp rest)
              ⟨self, Number.ofInt (n - a)⟩).2
            - withdrewTotal (run (List.map IntOp.toOp rest)
              ⟨self, Number.ofInt (n - a)⟩).2 := by omega
        rw [he]
        exact hih
      · have hex := withdraw_ofInt_rejected self n a hn hsc ha
        have hih := ih n hn hsr (by omega)
        simp only [List.map_cons, IntOp.toOp, run, Op.exec, hex, depositedTotal_append,
          withdrewTotal_append, totals_failureMessage.1, totals_failureMessage.2, zero_add]
        exact hih
    | getBalance =>
      simp only [IntOp.deposited] at hsum
      have hex := getBalance_ofInt self n hn
      have hih := ih n hn hsr (by omega)
      simp only [List.map_cons, IntOp.toOp, run, Op.exec, hex, depositedTotal_append,
        withdrewTotal_append, (totals_balance_line (toString n)).1,
        (totals_balance_line (toString n)).2, zero_add]
      exact hih

/-- Counterexample to C16 as stated: from balance `2^53 = 9007199254740992`,
`deposit(1)`, `deposit(1)`, `withdraw(2)` logs deposits of total 2 and a
withdrawal of 2, yet the balance ends at 9007199254740990, not at
9007199254740992. -/
theorem ledger_out_of_balance :
    (run [Op.deposit 1, Op.deposit 1, Op.withdraw 2] (createAccount 9007199254740992)).2
      = ["Deposited ₹1.", "Deposited ₹1.", "Withdrew ₹2."]
    ∧ depositedTotal (run [Op.deposit 1, Op.deposit 1, Op.withdraw 2]
        (createAccount 9007199254740992)).2 = 2
    ∧ withdrewTotal (run [Op.deposit 1, Op.deposit 1, Op.withdraw 2]
        (createAccount 9007199254740992)).2 = 2
    ∧ (run [Op.deposit 1, Op.deposit 1, Op.withdraw 2]
        (createAccount 9007199254740992)).1.balance.toInt? = some 9007199254740990
    ∧ ¬ ((run [Op.deposit 1, Op.deposit 1, Op.withdraw 2]
        (createAccount 9007199254740992)).1.balance.toInt?
          = some (9007199254740992
              + depositedTotal (run [Op.deposit 1, Op.deposit 1, Op.withdraw 2]
                  (createAccount 9007199254740992)).2
              - withdrewTotal (run [Op.deposit 1, Op.deposit 1, Op.withdraw 2]
                  (createAccount 9007199254740992)).2)) := by
  decide

/-- C16, amended: the console log is a complete ledger of balance changes
as long as the numbers stay safe integers: for every safe-integer initial
balance `b` and every finite sequence of `deposit`, `withdraw` and
`getBalance` calls with safe-integer amounts such that `b` plus the sum of
the positive deposit amounts is at most `2^53 - 1`, the final balance is
exactly `b` plus the sum of the amounts in the logged `Deposited ₹a.` lines
minus the sum of the amounts in the logged `Withdrew ₹a.` lines (the amount
of a line being the `a` it was rendered from); for arbitrary amounts every
`withdraw` and every `getBalance` call logs exactly one line and every
`deposit` call at most one. -/
theorem console_is_ledger (b : Int) (calls : List IntOp) (hb : isSafeInteger b)
    (hs : ∀ c ∈ calls, isSafeInteger c.amount)
    (hsum : b + (calls.map IntOp.deposited).sum ≤ maxSafeInteger) :
    (run (calls.map IntOp.toOp) (createAccount (Number.ofInt b))).1.balance.toInt?
      = some (b + depositedTotal (run (calls.map IntOp.toOp) (createAccount (Number.ofInt b))).2
          - withdrewTotal (run (calls.map IntOp.toOp) (createAccount (Number.ofInt b))).2)
    ∧ (∀ n : Int, isSafeInteger n →
        amountIn "Deposited ₹" ("Deposited ₹" ++ numberToString (Number.ofInt n) ++ ".") = some n
        ∧ amountIn "Withdrew ₹" ("Withdrew ₹" ++ numberToString (Number.ofInt n) ++ ".") = some n)
    ∧ (∀ (acc : Account) (a : Number),
        (withdraw a acc).out.length = 1
        ∧ (getBalance acc).out.length = 1
        ∧ (deposit a acc).out.length ≤ 1)
    ∧ depositedTotal (run [Op.deposit 500, Op.getBalance, Op.withdraw 200, Op.withdraw 5000,
        Op.deposit (-5), Op.deposit 30] (createAccount 1000)).2 = 530
    ∧ withdrewTotal (run [Op.deposit 500, Op.getBalance, Op.withdraw 200, Op.withdraw 5000,
        Op.deposit (-5), Op.deposit 30] (createAccount 1000)).2 = 200 := by
  have hacc : createAccount (Number.ofInt b)
      = ⟨(createAccount (Number.ofInt b)).self, Number.ofInt b⟩ := rfl
  have hrun := run_ledger (createAccount (Number.ofInt b)).self calls b hb hs hsum
  refine ⟨?_, ?_, ?_, by decide, by decide⟩
  · rw [hacc, hrun.1]
    exact Number.toInt?_ofInt _ hrun.2
  · intro n hn
    rw [numberToString_ofInt n hn]
    exact ⟨(amountIn_deposited_line n).1, (amountIn_withdrew_line n).1⟩
  · intro acc a
    refine ⟨?_, rfl, ?_⟩
    · by_cases ha : a > 0 ∧ a ≤ acc.balance
      · rw [withdraw_of_guard a acc ha]
        rfl
      · rw [withdraw_of_not_guard a acc ha]
        rfl
    · by_cases ha : a > 0
      · rw [deposit_of_pos a acc ha]
        exact le_refl 1
      · rw [deposit_of_not_pos a acc ha]
        exact Nat.zero_le 1

/-- Witness of C16, amended: from balance 1000, a deposit, a read, an
accepted and a rejected withdrawal, an ignored and an accepted deposit end
at 1000 + 530 - 200. -/
theorem console_is_ledger_witness :
    (isSafeInteger 1000
      ∧ (∀ c ∈ [IntOp.deposit 500, IntOp.getBalance, IntOp.withdraw 200, IntOp.withdraw 5000,
          IntOp.deposit (-5), IntOp.deposit 30], isSafeInteger c.amount)
      ∧ 1000 + (([IntOp.deposit 500, IntOp.getBalance, IntOp.withdraw 200, IntOp.withdraw 5000,
          IntOp.deposit (-5), IntOp.deposit 30]).map IntOp.deposited).sum ≤ maxSafeInteger)
    ∧ (run (([IntOp.deposit 500, IntOp.getBalance, IntOp.withdraw 200, IntOp.withdraw 5000,
          IntOp.deposit (-5), IntOp.deposit 30]).map IntOp.toOp)
        (createAccount (Number.ofInt 1000))).1.balance.toInt?
      = some (1000
          + depositedTotal (run (([IntOp.deposit 500, IntOp.getBalance, IntOp.withdraw 200,
              IntOp.withdraw 5000, IntOp.deposit (-5), IntOp.deposit 30]).map IntOp.toOp)
              (createAccount (Number.ofInt 1000))).2
          - withdrewTotal (run (([IntOp.deposit 500, IntOp.getBalance, IntOp.withdraw 200,
              IntOp.withdraw 5000, IntOp.deposit (-5), IntOp.deposit 30]).map IntOp.toOp)
              (createAccount (Number.ofInt 1000))).2) :=
  ⟨by decide,
    (console_is_ledger 1000 [IntOp.deposit 500, IntOp.getBalance, IntOp.withdraw 200,
      IntOp.withdraw 5000, IntOp.deposit (-5), IntOp.deposit 30] (by decide) (by decide)
      (by decide)).1⟩

end Closures
